import Mathlib

/-!
Verification of the symbolic Bitcoin-script analyzer (`ScriptAnalyzer`,
`ConditionStack`, `ScriptConv`, `Util` from the analyzer source).

Shallow embedding conventions:
* A byte string (`Uint8Array`) is a `List Nat` whose entries are below 256
  (the constructors of the source only ever build such lists).
* The evaluation stack and altstack store their TOP at the HEAD of the
  Lean list; the JS arrays store the top at the end.  Every `push`/`pop`
  of the source is translated accordingly.  Lists that the source handles
  in bottom-to-top order (the results of `takeElements`/`readElements`,
  argument lists of expressions, the `spendingConditions` array) keep the
  source's order.
* JS numbers that stay non-negative 32-bit integers are modelled as `Nat`
  (`& 0xff` is `&&& 0xff`, `>> 8` on such values is `>>> 8`); script
  integers (which may be negative) are `Int`.  The `|`/`<<` loop of
  `ScriptConv.Int.decode` is modelled on `Nat`: the analyzer only feeds
  `decode` buffers of at most 4 bytes (`numFromStack` checks the length
  first), where the implicit JS 32-bit coercions are the identity.
* Exceptions are explicit constructors of the result types.
-/

namespace BtcFun

/-- Expression model: a stack element is a concrete byte string, a free
witness variable, or an opcode applied to arguments, optionally tagged
with a script error (the `Expr` type of the source). -/
inductive Expr where
  | bytes (b : List Nat) : Expr
  | var (n : Nat) : Expr
  | app (opcode : Int) (args : List Expr) (error : Option Nat) : Expr
deriving Repr

instance : Inhabited Expr := ⟨Expr.bytes []⟩

/-- Script items: a data push or an opcode (the `Uint8Array | number`
elements of the script array). -/
inductive Item where
  | push (b : List Nat) : Item
  | op (code : Int) : Item
deriving Repr

namespace opcodes

def OP_0 : Int := 0x00
def OP_1 : Int := 0x51
def OP_16 : Int := 0x60
def OP_NOP : Int := 0x61
def OP_VER : Int := 0x62
def OP_IF : Int := 0x63
def OP_NOTIF : Int := 0x64
def OP_VERIF : Int := 0x65
def OP_VERNOTIF : Int := 0x66
def OP_ELSE : Int := 0x67
def OP_ENDIF : Int := 0x68
def OP_VERIFY : Int := 0x69
def OP_RETURN : Int := 0x6a
def OP_TOALTSTACK : Int := 0x6b
def OP_FROMALTSTACK : Int := 0x6c
def OP_2DROP : Int := 0x6d
def OP_2DUP : Int := 0x6e
def OP_3DUP : Int := 0x6f
def OP_2OVER : Int := 0x70
def OP_2ROT : Int := 0x71
def OP_2SWAP : Int := 0x72
def OP_IFDUP : Int := 0x73
def OP_DEPTH : Int := 0x74
def OP_DROP : Int := 0x75
def OP_DUP : Int := 0x76
def OP_NIP : Int := 0x77
def OP_OVER : Int := 0x78
def OP_PICK : Int := 0x79
def OP_ROLL : Int := 0x7a
def OP_ROT : Int := 0x7b
def OP_SWAP : Int := 0x7c
def OP_TUCK : Int := 0x7d
def OP_SIZE : Int := 0x82
def OP_EQUAL : Int := 0x87
def OP_EQUALVERIFY : Int := 0x88
def OP_1ADD : Int := 0x8b
def OP_1SUB : Int := 0x8c
def OP_NEGATE : Int := 0x8f
def OP_ABS : Int := 0x90
def OP_NOT : Int := 0x91
def OP_0NOTEQUAL : Int := 0x92
def OP_ADD : Int := 0x93
def OP_SUB : Int := 0x94
def OP_BOOLAND : Int := 0x9a
def OP_BOOLOR : Int := 0x9b
def OP_NUMEQUAL : Int := 0x9c
def OP_NUMEQUALVERIFY : Int := 0x9d
def OP_NUMNOTEQUAL : Int := 0x9e
def OP_LESSTHAN : Int := 0x9f
def OP_GREATERTHAN : Int := 0xa0
def OP_LESSTHANOREQUAL : Int := 0xa1
def OP_GREATERTHANOREQUAL : Int := 0xa2
def OP_MIN : Int := 0xa3
def OP_MAX : Int := 0xa4
def OP_WITHIN : Int := 0xa5
def OP_RIPEMD160 : Int := 0xa6
def OP_SHA1 : Int := 0xa7
def OP_SHA256 : Int := 0xa8
def OP_HASH160 : Int := 0xa9
def OP_HASH256 : Int := 0xaa
def OP_CODESEPARATOR : Int := 0xab
def OP_CHECKSIG : Int := 0xac
def OP_CHECKSIGVERIFY : Int := 0xad
def OP_CHECKMULTISIG : Int := 0xae
def OP_CHECKMULTISIGVERIFY : Int := 0xaf
def OP_NOP1 : Int := 0xb0
def OP_CHECKLOCKTIMEVERIFY : Int := 0xb1
def OP_CHECKSEQUENCEVERIFY : Int := 0xb2
def OP_CHECKSIGADD : Int := 0xba
def INTERNAL_NOT : Int := -1

end opcodes

namespace ScriptError

def SCRIPT_ERR_OK : Nat := 0
def SCRIPT_ERR_EVAL_FALSE : Nat := 2
def SCRIPT_ERR_OP_RETURN : Nat := 3
def SCRIPT_ERR_STACK_SIZE : Nat := 7
def SCRIPT_ERR_SIG_COUNT : Nat := 8
def SCRIPT_ERR_PUBKEY_COUNT : Nat := 9
def SCRIPT_ERR_VERIFY : Nat := 10
def SCRIPT_ERR_EQUALVERIFY : Nat := 11
def SCRIPT_ERR_CHECKMULTISIGVERIFY : Nat := 12
def SCRIPT_ERR_CHECKSIGVERIFY : Nat := 13
def SCRIPT_ERR_NUMEQUALVERIFY : Nat := 14
def SCRIPT_ERR_BAD_OPCODE : Nat := 15
def SCRIPT_ERR_INVALID_STACK_OPERATION : Nat := 17
def SCRIPT_ERR_INVALID_ALTSTACK_OPERATION : Nat := 18
def SCRIPT_ERR_UNBALANCED_CONDITIONAL : Nat := 19
def SCRIPT_ERR_SIG_NULLDUMMY : Nat := 27
def SCRIPT_ERR_CLEANSTACK : Nat := 29
def SCRIPT_ERR_MINIMALIF : Nat := 30
def SCRIPT_ERR_TAPSCRIPT_CHECKMULTISIG : Nat := 49
def SCRIPT_ERR_TAPSCRIPT_MINIMALIF : Nat := 50
def SCRIPT_ERR_NUM_OVERFLOW : Nat := 54

end ScriptError

namespace ScriptVersion

def LEGACY : Nat := 0
def SEGWITV0 : Nat := 1
def SEGWITV1 : Nat := 2

end ScriptVersion

namespace ScriptRules

def ALL : Nat := 0
def CONSENSUS_ONLY : Nat := 1

end ScriptRules

namespace ScriptConv

/-- Little-endian minimal byte digits of a non-negative magnitude: the
`while (abs) { buf.push(abs & 0xff); abs >>= 8; }` loop of
`ScriptConv.Int.encode`. -/
def natDigits (m : Nat) : List Nat :=
  if m = 0 then [] else (m &&& 0xff) :: natDigits (m >>> 8)
termination_by m
decreasing_by
  simp only [Nat.shiftRight_eq_div_pow]
  exact Nat.div_lt_self (Nat.pos_of_ne_zero (by assumption)) (by norm_num)

/-- Sign-magnitude little-endian integer encoding, `ScriptConv.Int.encode`
of the source (empty for 0; sign bit in the top byte, with an extra
`0x00`/`0x80` byte when the magnitude's top bit is set). -/
def Int_encode (n : Int) : List Nat :=
  let neg := n < 0
  let buf := natDigits n.natAbs
  match buf.getLast? with
  | none => []
  | some last =>
    if last &&& 0x80 ≠ 0 then buf ++ [if neg then 0x80 else 0x00]
    else if neg then buf.dropLast ++ [last ||| 0x80]
    else buf

/-- Accumulating loop of `ScriptConv.Int.decode`:
`for (i…) { n |= buf[i] << (i * 8); }`.  The analyzer only decodes
buffers of at most 4 bytes (after masking, the value stays below `2^31`),
so the JS 32-bit coercions of `|` and `<<` are the identity and the loop
is modelled on `Nat`. -/
def decodeLoop : List Nat → Nat → Nat → Nat
  | [], _, n => n
  | b :: rest, i, n => decodeLoop rest (i + 1) (n ||| (b <<< (i * 8)))

/-- Sign-magnitude little-endian integer decoding, `ScriptConv.Int.decode`
of the source. -/
def Int_decode (buf : List Nat) : Int :=
  match buf.getLast? with
  | none => 0
  | some lastB =>
    let neg := lastB &&& 0x80 ≠ 0
    let buf2 := if neg then buf.dropLast ++ [lastB &&& 0x7f] else buf
    let n := decodeLoop buf2 0 0
    if neg then -(n : Int) else (n : Int)

/-- The byte-string constant `ScriptConv.Bool.FALSE` (empty). -/
def Bool_FALSE : List Nat := []

/-- The byte-string constant `ScriptConv.Bool.TRUE` (single byte 1). -/
def Bool_TRUE : List Nat := [1]

/-- Canonical boolean reading of a byte string, `ScriptConv.Bool.decode`:
false iff every byte is zero except possibly a trailing `0x80`. -/
def Bool_decode : List Nat → Bool
  | [] => false
  | b :: rest =>
    if b ≠ 0 then (decide (rest ≠ []) || decide (b ≠ 0x80)) else Bool_decode rest

end ScriptConv

/-- The `NO_FALSE` sentinel of the condition stack. -/
def NO_FALSE : Int := -1

/-- The compact condition stack of the source (`ConditionStack`): the size
of the implied boolean stack and the position of its first false value
(`NO_FALSE` when all values are true). -/
structure ConditionStack where
  m_stack_size : Int
  m_first_false_pos : Int
deriving Repr

namespace ConditionStack

/-- Freshly constructed condition stack (`new ConditionStack()`). -/
def init : ConditionStack := ⟨0, NO_FALSE⟩

def empty (cs : ConditionStack) : Bool := cs.m_stack_size == 0

def all_true (cs : ConditionStack) : Bool := cs.m_first_false_pos == NO_FALSE

def push_back (cs : ConditionStack) (f : Bool) : ConditionStack :=
  let cs' :=
    if cs.m_first_false_pos == NO_FALSE && !f then
      { cs with m_first_false_pos := cs.m_stack_size }
    else cs
  { cs' with m_stack_size := cs'.m_stack_size + 1 }

/-- Popping; `none` models the `throw 'pop_back: stack size <= 0'` branch. -/
def pop_back (cs : ConditionStack) : Option ConditionStack :=
  if cs.m_stack_size ≤ 0 then none
  else
    let cs' := { cs with m_stack_size := cs.m_stack_size - 1 }
    some (if cs'.m_first_false_pos == cs'.m_stack_size then
            { cs' with m_first_false_pos := NO_FALSE }
          else cs')

/-- Toggling the top value; `none` models the
`throw 'toggle_top: stack size <= 0'` branch. -/
def toggle_top (cs : ConditionStack) : Option ConditionStack :=
  if cs.m_stack_size ≤ 0 then none
  else if cs.m_first_false_pos == NO_FALSE then
    some { cs with m_first_false_pos := cs.m_stack_size - 1 }
  else if cs.m_first_false_pos == cs.m_stack_size - 1 then
    some { cs with m_first_false_pos := NO_FALSE }
  else some cs

end ConditionStack

/-- Per-path analyzer state: the mutable fields of a `ScriptAnalyzer`
instance that the per-item semantics reads and writes.  The script itself
and the offset into it are carried by the `analyze` recursion; the `path`
debug counter and the shared `branches` registry do not influence the
semantics of a single path and are not modelled. -/
structure AnState where
  version : Nat
  rules : Nat
  stack : List Expr
  altstack : List Expr
  spendingConditions : List Expr
  varCounter : Nat
  cs : ConditionStack
deriving Repr

namespace AnState

/-- Loop body of `takeElements`: `amount` iterations, each popping the
top of the stack (head of our list) onto the front of `res`, or drawing a
fresh variable when the stack is empty. -/
def takeLoop : Nat → AnState → List Expr → List Expr × AnState
  | 0, s, res => (res, s)
  | n + 1, s, res =>
    match s.stack with
    | x :: rest => takeLoop n { s with stack := rest } (x :: res)
    | [] =>
      takeLoop n { s with varCounter := s.varCounter + 1 }
        (Expr.var s.varCounter :: res)

/-- The `takeElements(amount)` primitive: remove the top `amount` stack
slots and return them in bottom-to-top order, drawing fresh variables for
missing slots. -/
def takeElements (s : AnState) (amount : Nat) : List Expr × AnState :=
  takeLoop amount s []

/-- Padding loop of `readElements`: the
`while (stack.length < amount) stack.unshift(var)` loop runs exactly
`amount - stack.length` times, each appending a fresh variable at the
bottom of the stack (the end of our list). -/
def readPadLoop : Nat → AnState → AnState
  | 0, s => s
  | n + 1, s =>
    readPadLoop n
      { s with stack := s.stack ++ [Expr.var s.varCounter],
               varCounter := s.varCounter + 1 }

/-- The `readElements(amount)` primitive: pad the bottom of the stack
with fresh variables until it holds at least `amount` slots, then return
the top `amount` slots in bottom-to-top order without removing them
(`stack.slice(stack.length - amount)`). -/
def readElements (s : AnState) (amount : Nat) : List Expr × AnState :=
  let s' := readPadLoop (amount - s.stack.length) s
  (((s'.stack.take amount).reverse), s')

/-- The `verify()` helper (OP_VERIFY): take one element; a concrete byte
string decoding to false fails (first component `false`), a symbolic
element is appended to the spending conditions. -/
def verify (s : AnState) : Bool × AnState :=
  let t := s.takeElements 1
  match t.1.headI with
  | .bytes b => if !ScriptConv.Bool_decode b then (false, t.2) else (true, t.2)
  | e =>
    (true, { t.2 with spendingConditions := t.2.spendingConditions ++ [e] })

/-- Result of `numFromStack`: a decoded number, `undefined` (buffer longer
than 4 bytes), or the thrown string for a symbolic top element. -/
inductive NumRes where
  | thrown : NumRes
  | undef : NumRes
  | val (n : Int) : NumRes
deriving Repr

/-- The `numFromStack` helper: take the top element; a symbolic element
throws, a buffer longer than 4 bytes yields `undefined`, otherwise the
decoded script integer. -/
def numFromStack (s : AnState) : NumRes × AnState :=
  let t := s.takeElements 1
  match t.1.headI with
  | .bytes top =>
    if top.length ≤ 4 then (.val (ScriptConv.Int_decode top), t.2)
    else (.undef, t.2)
  | _ => (.thrown, t.2)

/-- Spreading a bottom-to-top list onto the stack
(`stack.push(...elems)`): with the top at the head of our list this
prepends the reversed list. -/
def pushAll (s : AnState) (elems : List Expr) : AnState :=
  { s with stack := elems.reverse ++ s.stack }

end AnState

/-- Result of processing one script item inside the `analyze` loop:
return from `analyze` with an error code, continue with the next item
(possibly after spawning a fork that analyzes the rest of the script), or
one of the two kinds of exceptions the loop body can raise. -/
inductive StepRes where
  | ret (e : Nat) (s : AnState) (fork : Option AnState) : StepRes
  | next (s : AnState) (fork : Option AnState) : StepRes
  | csThrow : StepRes
  | numThrow : StepRes
deriving Repr

/-- Shared tail of every loop iteration that falls through the switch:
the `stack.length + altstack.length > 1000` check. -/
def finishIter (s : AnState) (fork : Option AnState) : StepRes :=
  if s.stack.length + s.altstack.length > 1000 then
    .ret ScriptError.SCRIPT_ERR_STACK_SIZE s fork
  else .next s fork

/-- The per-opcode `switch (op)` of the `analyze` loop body; `fExec` is
the gate computed at the top of the iteration (only the OP_IF/OP_NOTIF
case reads it).  Numeric literals in the match are the opcode values of
the source's `opcodes` table (named in the trailing comments). -/
def opSwitch (s : AnState) (fExec : Bool) (code : Int) : StepRes :=
  match code with
      | 0x00 =>  -- OP_0
        finishIter { s with stack := .bytes [] :: s.stack } none
      | 0x51 | 0x52 | 0x53 | 0x54 | 0x55 | 0x56 | 0x57 | 0x58
      | 0x59 | 0x5a | 0x5b | 0x5c | 0x5d | 0x5e | 0x5f | 0x60 =>  -- OP_1..OP_16
        finishIter { s with stack := .bytes [(code - 0x50).toNat] :: s.stack } none
      | 0x61 =>  -- OP_NOP
        finishIter s none
      | 0x63 | 0x64 =>  -- OP_IF, OP_NOTIF
        if fExec then
          let minimalIf := s.version == ScriptVersion.SEGWITV1 ||
            (s.version == ScriptVersion.SEGWITV0 && s.rules == ScriptRules.ALL)
          let t := s.takeElements 1
          let elem := t.1.headI
          let s1 := t.2
          let thisCs := s1.cs.push_back (code == opcodes.OP_IF)
          let forkCs := s1.cs.push_back (!(code == opcodes.OP_IF))
          if minimalIf then
            let error := if s.version == ScriptVersion.SEGWITV1 then
                ScriptError.SCRIPT_ERR_TAPSCRIPT_MINIMALIF
              else ScriptError.SCRIPT_ERR_MINIMALIF
            finishIter
              { s1 with cs := thisCs,
                        spendingConditions := s1.spendingConditions ++
                          [.app opcodes.OP_EQUAL [elem, .bytes ScriptConv.Bool_TRUE] (some error)] }
              (some { s1 with cs := forkCs,
                              spendingConditions := s1.spendingConditions ++
                                [.app opcodes.OP_EQUAL [elem, .bytes ScriptConv.Bool_FALSE] (some error)] })
          else
            finishIter
              { s1 with cs := thisCs,
                        spendingConditions := s1.spendingConditions ++ [elem] }
              (some { s1 with cs := forkCs,
                              spendingConditions := s1.spendingConditions ++
                                [.app opcodes.INTERNAL_NOT [elem] none] })
        else
          finishIter { s with cs := s.cs.push_back false } none
      | 0x67 =>  -- OP_ELSE
        if s.cs.empty then
          .ret ScriptError.SCRIPT_ERR_UNBALANCED_CONDITIONAL s none
        else
          match s.cs.toggle_top with
          | none => .csThrow
          | some cs' => finishIter { s with cs := cs' } none
      | 0x68 =>  -- OP_ENDIF
        if s.cs.empty then
          .ret ScriptError.SCRIPT_ERR_UNBALANCED_CONDITIONAL s none
        else
          match s.cs.pop_back with
          | none => .csThrow
          | some cs' => finishIter { s with cs := cs' } none
      | 0x69 =>  -- OP_VERIFY
        let v := s.verify
        if !v.1 then .ret ScriptError.SCRIPT_ERR_VERIFY v.2 none
        else finishIter v.2 none
      | 0x6a =>  -- OP_RETURN
        .ret ScriptError.SCRIPT_ERR_OP_RETURN s none
      | 0x6b =>  -- OP_TOALTSTACK
        let t := s.takeElements 1
        finishIter { t.2 with altstack := t.1.headI :: t.2.altstack } none
      | 0x6c =>  -- OP_FROMALTSTACK
        match s.altstack with
        | [] => .ret ScriptError.SCRIPT_ERR_INVALID_ALTSTACK_OPERATION s none
        | a :: rest =>
          finishIter { s with stack := a :: s.stack, altstack := rest } none
      | 0x6d =>  -- OP_2DROP
        finishIter (s.takeElements 2).2 none
      | 0x6e =>  -- OP_2DUP
        let t := s.readElements 2
        finishIter (t.2.pushAll t.1) none
      | 0x6f =>  -- OP_3DUP
        let t := s.readElements 3
        finishIter (t.2.pushAll t.1) none
      | 0x70 =>  -- OP_2OVER
        let t := s.readElements 4
        finishIter (t.2.pushAll (t.1.take 2)) none
      | 0x71 =>  -- OP_2ROT
        let t := s.takeElements 6
        finishIter (t.2.pushAll (t.1.drop 2 ++ t.1.take 2)) none
      | 0x72 =>  -- OP_2SWAP
        let t := s.takeElements 4
        finishIter (t.2.pushAll (t.1.drop 2 ++ t.1.take 2)) none
      | 0x73 =>  -- OP_IFDUP
        let t := s.readElements 1
        let elem := t.1.headI
        finishIter
          { t.2 with spendingConditions := t.2.spendingConditions ++ [elem],
                     stack := elem :: t.2.stack }
          (some { t.2 with spendingConditions := t.2.spendingConditions ++
                    [.app opcodes.INTERNAL_NOT [elem] none] })
      | 0x74 =>  -- OP_DEPTH
        finishIter
          { s with stack := .bytes (ScriptConv.Int_encode s.stack.length) :: s.stack } none
      | 0x75 =>  -- OP_DROP
        finishIter (s.takeElements 1).2 none
      | 0x76 =>  -- OP_DUP
        let t := s.readElements 1
        finishIter { t.2 with stack := t.1.headI :: t.2.stack } none
      | 0x77 =>  -- OP_NIP
        let t := s.takeElements 2
        finishIter { t.2 with stack := t.1.getD 1 default :: t.2.stack } none
      | 0x78 =>  -- OP_OVER
        let t := s.readElements 2
        finishIter { t.2 with stack := t.1.headI :: t.2.stack } none
      | 0x79 | 0x7a =>  -- OP_PICK, OP_ROLL
        let nr := s.numFromStack
        match nr.1 with
        | .thrown => .numThrow
        | .undef => .ret ScriptError.SCRIPT_ERR_NUM_OVERFLOW nr.2 none
        | .val n =>
          if n < 0 then
            .ret ScriptError.SCRIPT_ERR_INVALID_STACK_OPERATION nr.2 none
          else
            let t := nr.2.readElements (n.toNat + 1)
            let elem := t.1.headI
            -- OP_ROLL removes the picked slot: JS index len - n - 1 is
            -- index n from the top, i.e. index n of our list
            let s3 := if code == opcodes.OP_ROLL then
                { t.2 with stack := t.2.stack.eraseIdx n.toNat }
              else t.2
            finishIter { s3 with stack := elem :: s3.stack } none
      | 0x7b =>  -- OP_ROT
        let t := s.takeElements 3
        finishIter (t.2.pushAll (t.1.drop 1 ++ [t.1.headI])) none
      | 0x7c =>  -- OP_SWAP
        let t := s.takeElements 2
        finishIter (t.2.pushAll [t.1.getD 1 default, t.1.headI]) none
      | 0x7d =>  -- OP_TUCK
        let t := s.takeElements 2
        finishIter (t.2.pushAll (t.1.getD 1 default :: t.1)) none
      | 0x82 =>  -- OP_SIZE
        let t := s.readElements 1
        finishIter { t.2 with stack := .app code t.1 none :: t.2.stack } none
      | 0x87 | 0x88 =>  -- OP_EQUAL, OP_EQUALVERIFY
        let t := s.takeElements 2
        let s2 := { t.2 with stack := .app opcodes.OP_EQUAL t.1 none :: t.2.stack }
        if code == opcodes.OP_EQUALVERIFY then
          let v := s2.verify
          if !v.1 then .ret ScriptError.SCRIPT_ERR_EQUALVERIFY v.2 none
          else finishIter v.2 none
        else finishIter s2 none
      | 0x8b | 0x8c | 0x8f | 0x90 | 0x91 | 0x92 =>
        -- OP_1ADD, OP_1SUB, OP_NEGATE, OP_ABS, OP_NOT, OP_0NOTEQUAL
        let t := s.takeElements 1
        finishIter { t.2 with stack := .app code t.1 none :: t.2.stack } none
      | 0x93 | 0x94 | 0x9a | 0x9b | 0x9c | 0x9d | 0x9e | 0x9f
      | 0xa0 | 0xa1 | 0xa2 | 0xa3 | 0xa4 =>
        -- OP_ADD .. OP_MAX, with OP_NUMEQUALVERIFY normalized to OP_NUMEQUAL
        let t := s.takeElements 2
        let pushedOp := if code == opcodes.OP_NUMEQUALVERIFY then opcodes.OP_NUMEQUAL else code
        let s2 := { t.2 with stack := .app pushedOp t.1 none :: t.2.stack }
        -- the source guard reads `op === opcodes.OP_EQUALVERIFY` here,
        -- which never holds in this case group
        if code == opcodes.OP_EQUALVERIFY then
          let v := s2.verify
          if !v.1 then .ret ScriptError.SCRIPT_ERR_NUMEQUALVERIFY v.2 none
          else finishIter v.2 none
        else finishIter s2 none
      | 0xa5 =>  -- OP_WITHIN
        let t := s.takeElements 3
        finishIter { t.2 with stack := .app code t.1 none :: t.2.stack } none
      | 0xa6 | 0xa7 | 0xa8 | 0xa9 | 0xaa =>
        -- OP_RIPEMD160, OP_SHA1, OP_SHA256, OP_HASH160, OP_HASH256
        let t := s.takeElements 1
        finishIter { t.2 with stack := .app code t.1 none :: t.2.stack } none
      | 0xab =>  -- OP_CODESEPARATOR
        finishIter s none
      | 0xac | 0xad =>  -- OP_CHECKSIG, OP_CHECKSIGVERIFY
        let t := s.takeElements 2
        let s2 := { t.2 with stack := .app opcodes.OP_CHECKSIG t.1 none :: t.2.stack }
        if code == opcodes.OP_CHECKSIGVERIFY then
          let v := s2.verify
          if !v.1 then .ret ScriptError.SCRIPT_ERR_CHECKSIGVERIFY v.2 none
          else finishIter v.2 none
        else finishIter s2 none
      | 0xae | 0xaf =>  -- OP_CHECKMULTISIG, OP_CHECKMULTISIGVERIFY
        if s.version == ScriptVersion.SEGWITV1 then
          .ret ScriptError.SCRIPT_ERR_TAPSCRIPT_CHECKMULTISIG s none
        else
          let kr := s.numFromStack
          match kr.1 with
          | .thrown => .numThrow
          | .undef => .ret ScriptError.SCRIPT_ERR_NUM_OVERFLOW kr.2 none
          | .val k =>
            if k < 0 || k > 20 then
              .ret ScriptError.SCRIPT_ERR_PUBKEY_COUNT kr.2 none
            else
              let tp := kr.2.takeElements k.toNat
              let pks := tp.1
              let sr := tp.2.numFromStack
              match sr.1 with
              | .thrown => .numThrow
              | .undef => .ret ScriptError.SCRIPT_ERR_NUM_OVERFLOW sr.2 none
              | .val sc =>
                if sc < 0 || sc > k then
                  .ret ScriptError.SCRIPT_ERR_SIG_COUNT sr.2 none
                else
                  let ts := sr.2.takeElements sc.toNat
                  let sigs := ts.1
                  let td := ts.2.takeElements 1
                  let dummy := td.1.headI
                  let dummyCond : Expr :=
                    .app opcodes.OP_EQUAL [dummy, .bytes ScriptConv.Bool_FALSE]
                      (some ScriptError.SCRIPT_ERR_SIG_NULLDUMMY)
                  let s6 :=
                    { td.2 with spendingConditions := td.2.spendingConditions ++ [dummyCond] }
                  let cmsExpr : Expr :=
                    .app opcodes.OP_CHECKMULTISIG
                      (sigs ++ [.bytes (ScriptConv.Int_encode sc)] ++
                       pks ++ [.bytes (ScriptConv.Int_encode k)]) none
                  let s7 := { s6 with stack := cmsExpr :: s6.stack }
                  if code == opcodes.OP_CHECKMULTISIGVERIFY then
                    let v := s7.verify
                    if !v.1 then
                      .ret ScriptError.SCRIPT_ERR_CHECKMULTISIGVERIFY v.2 none
                    else finishIter v.2 none
                  else finishIter s7 none
      | 0xb1 | 0xb2 =>  -- OP_CHECKLOCKTIMEVERIFY, OP_CHECKSEQUENCEVERIFY
        let t := s.readElements 1
        finishIter
          { t.2 with spendingConditions := t.2.spendingConditions ++
              [.app code t.1 none] } none
      | 0xb0 | 0xb3 | 0xb4 | 0xb5 | 0xb6 | 0xb7 | 0xb8 | 0xb9 =>
        -- OP_NOP1, OP_NOP4 .. OP_NOP10
        finishIter s none
      | 0xba =>  -- OP_CHECKSIGADD
        if s.version < ScriptVersion.SEGWITV1 then
          .ret ScriptError.SCRIPT_ERR_BAD_OPCODE s none
        else
          let t := s.takeElements 3
          let sig := t.1.headI
          let n := t.1.getD 1 default
          let pk := t.1.getD 2 default
          let addExpr : Expr :=
            .app opcodes.OP_ADD [n, .app opcodes.OP_CHECKSIG [sig, pk] none] none
          finishIter { t.2 with stack := addExpr :: t.2.stack } none
      | _ => .ret ScriptError.SCRIPT_ERR_BAD_OPCODE s none

/-- One iteration of the `analyze` while-loop: the `fExec` gate followed
by the per-opcode switch. -/
def analyzeStep (s : AnState) (item : Item) : StepRes :=
  let fExec := s.cs.all_true
  match item with
  | .push b =>
    -- a push is skipped whenever fExec is false
    if !fExec then .next s none
    else finishIter { s with stack := .bytes b :: s.stack } none
  | .op code =>
    if !fExec && (code < opcodes.OP_IF || code > opcodes.OP_ENDIF) then
      .next s none
    else opSwitch s fExec code

/-- Invariant used to show the condition-stack exception is unreachable:
a step result is `csOk` when it is not the condition-stack throw and
every state it carries (including a spawned fork) has a non-negative
implied condition-stack size. -/
def StepRes.csOk : StepRes → Prop
  | .csThrow => False
  | .numThrow => True
  | .ret _ s' none => 0 ≤ s'.cs.m_stack_size
  | .ret _ s' (some f) => 0 ≤ s'.cs.m_stack_size ∧ 0 ≤ f.cs.m_stack_size
  | .next s' none => 0 ≤ s'.cs.m_stack_size
  | .next s' (some f) => 0 ≤ s'.cs.m_stack_size ∧ 0 ≤ f.cs.m_stack_size

/-- Outcome of a full `analyze()` call on one path. -/
inductive AOutcome where
  | ok (s : AnState) : AOutcome
  | err (e : Nat) (s : AnState) : AOutcome
  | thrownCs : AOutcome
  | thrownNum : AOutcome
deriving Repr

/-- The `analyze()` loop over the remaining script, including the checks
after the loop (unbalanced conditional, cleanstack, final verify).  A
fork spawned by an iteration runs `analyze` on the remaining script
before the parent continues (the source calls `fork.analyze()` inline and
discards its return value; only exceptions propagate). -/
def analyze (s : AnState) : List Item → AOutcome
  | [] =>
    if !s.cs.empty then
      .err ScriptError.SCRIPT_ERR_UNBALANCED_CONDITIONAL s
    else if s.stack.length > 1 then
      .err ScriptError.SCRIPT_ERR_CLEANSTACK s
    else
      let v := s.verify
      if !v.1 then .err ScriptError.SCRIPT_ERR_EVAL_FALSE v.2
      else .ok v.2
  | item :: rest =>
    match analyzeStep s item with
    | .csThrow => .thrownCs
    | .numThrow => .thrownNum
    | .ret e s' none => .err e s'
    | .ret e s' (some f) =>
      match analyze f rest with
      | .thrownCs => .thrownCs
      | .thrownNum => .thrownNum
      | _ => .err e s'
    | .next s' none => analyze s' rest
    | .next s' (some f) =>
      match analyze f rest with
      | .thrownCs => .thrownCs
      | .thrownNum => .thrownNum
      | _ => analyze s' rest

namespace Util

/-- Lexicographic byte-string comparison, `Util.bufferCompare`: compare
the common prefix pointwise, then the lengths. -/
def bufferCompare : List Nat → List Nat → Int
  | x :: xs, y :: ys =>
    if x < y then -1 else if x > y then 1 else bufferCompare xs ys
  | [], [] => 0
  | [], _ :: _ => -1
  | _ :: _, [] => 1

/-- The priority table `exprPriority` composed with `exprType`:
`var` ↦ 2, `opcode` ↦ 1, `value` ↦ 0. -/
def exprPriority : Expr → Int
  | .bytes _ => 0
  | .app _ _ _ => 1
  | .var _ => 2

mutual

/-- The comparator `Util.exprCompareFn`.  Two `App`s compare by opcode,
then arity, then arguments pairwise (falling through to the priority
difference, which is 0 for two `App`s); two `Var`s by index; two `Bytes`
lexicographically; mixed variants by priority difference. -/
def exprCompareFn : Expr → Expr → Int
  | .app op1 args1 _, .app op2 args2 _ =>
    let sOp := op1 - op2
    if sOp ≠ 0 then sOp
    else
      let ldiff : Int := (args1.length : Int) - (args2.length : Int)
      if ldiff ≠ 0 then ldiff else exprListCompare args1 args2
  | .var n, .var m => (n : Int) - (m : Int)
  | .bytes b1, .bytes b2 => bufferCompare b1 b2
  | a, b => exprPriority b - exprPriority a

/-- The pairwise-argument loop of `exprCompareFn`: the first nonzero
comparison, and 0 when the loop completes. -/
def exprListCompare : List Expr → List Expr → Int
  | x :: xs, y :: ys =>
    let c := exprCompareFn x y
    if c ≠ 0 then c else exprListCompare xs ys
  | _, _ => 0

end

/-- Stable insertion of an element into a comparator-sorted list: the
element goes before the first entry it does not compare after.  Used to
model the (stable) `Array.prototype.sort` call of `normalizeExprs`. -/
def insertSorted (x : Expr) : List Expr → List Expr
  | [] => [x]
  | y :: ys => if exprCompareFn x y ≤ 0 then x :: y :: ys else y :: insertSorted x ys

/-- Stable sort by `exprCompareFn`, modelling `exprs.sort(exprCompareFn)`
(ECMAScript sorts are stable and `exprCompareFn` is a consistent
comparator, so any stable sort produces the array the source produces). -/
def exprSort (l : List Expr) : List Expr := List.foldr insertSorted [] l

theorem mem_insertSorted {a x : Expr} {l : List Expr}
    (h : a ∈ insertSorted x l) : a = x ∨ a ∈ l := by
  induction l with
  | nil =>
    simp only [insertSorted, List.mem_singleton] at h
    exact Or.inl h
  | cons y ys ih =>
    simp only [insertSorted] at h
    by_cases hc : exprCompareFn x y ≤ 0
    · simp [hc] at h
      rcases h with h | h | h
      · exact Or.inl h
      · exact Or.inr (by simp [h])
      · exact Or.inr (by simp [h])
    · simp [hc] at h
      rcases h with h | h
      · exact Or.inr (by simp [h])
      · rcases ih h with h' | h'
        · exact Or.inl h'
        · exact Or.inr (by simp [h'])

theorem mem_exprSort {a : Expr} {l : List Expr} (h : a ∈ exprSort l) : a ∈ l := by
  induction l with
  | nil => simp only [exprSort, List.foldr_nil, List.not_mem_nil] at h
  | cons y ys ih =>
    simp only [exprSort, List.foldr] at h
    rcases mem_insertSorted h with h' | h'
    · simp [h']
    · exact List.mem_cons_of_mem _ (ih h')

/-- Opcodes whose argument order is significant; `normalizeExprs` does
not recurse into their argument lists. -/
def nonNormalizedOpcodes : List Int :=
  [opcodes.OP_CHECKMULTISIG, opcodes.OP_CHECKSIG, opcodes.OP_GREATERTHAN,
   opcodes.OP_GREATERTHANOREQUAL, opcodes.OP_LESSTHAN,
   opcodes.OP_LESSTHANOREQUAL, opcodes.OP_SUB, opcodes.OP_WITHIN]

mutual

/-- The canonical-ordering pass `Util.normalizeExprs`: sort the list with
`exprCompareFn`, then recursively normalize the argument lists of every
`App` element whose opcode is not order-significant. -/
def normalizeExprs (l : List Expr) : List Expr :=
  (exprSort l).attach.map (fun x => normalizeElem x.1)
termination_by sizeOf l
decreasing_by
  exact List.sizeOf_lt_of_mem (mem_exprSort x.2)

/-- Normalization of one element of a sorted list (the body of the
`for` loop of `normalizeExprs`). -/
def normalizeElem : Expr → Expr
  | .app opc args err =>
    if !(nonNormalizedOpcodes.contains opc) then .app opc (normalizeExprs args) err
    else .app opc args err
  | e => e
termination_by e => sizeOf e
decreasing_by
  simp
  omega

end

end Util

/-- Fresh variables `var (c + m - 1), …, var (c + 1), var c` in that
order: the shape of the freshly drawn block of `takeElements` in the
bottom-to-top result list (the smallest index sits next to the surviving
stack content, i.e. nearest the stack top among the drawn slots). -/
def varsDesc (c : Nat) : Nat → List Expr
  | 0 => []
  | m + 1 => Expr.var (c + m) :: varsDesc c m

/-- Fresh variables `var c, var (c + 1), …` in ascending order: the shape
of the block `readElements` appends at the bottom of the stack. -/
def varsAsc (c : Nat) : Nat → List Expr
  | 0 => []
  | m + 1 => Expr.var c :: varsAsc (c + 1) m

/-- Operations of a condition-stack history. -/
inductive CsOp where
  | push (f : Bool) : CsOp
  | pop : CsOp
  | toggle : CsOp
deriving Repr

/-- Run a history of operations on the compact `ConditionStack`; `none`
as soon as one of the throwing branches fires. -/
def runCs : ConditionStack → List CsOp → Option ConditionStack
  | cs, [] => some cs
  | cs, .push f :: rest => runCs (cs.push_back f) rest
  | cs, .pop :: rest =>
    match cs.pop_back with
    | none => none
    | some cs' => runCs cs' rest
  | cs, .toggle :: rest =>
    match cs.toggle_top with
    | none => none
    | some cs' => runCs cs' rest

/-- Modelled from the spec: the materialized vector of booleans that the
compact condition stack abstracts (`push` appends, `pop` removes the last
value, `toggle_top` flips the last value; popping or toggling an empty
vector is not permitted). -/
def runVec : List Bool → List CsOp → Option (List Bool)
  | v, [] => some v
  | v, .push f :: rest => runVec (v ++ [f]) rest
  | v, .pop :: rest =>
    if v = [] then none else runVec v.dropLast rest
  | v, .toggle :: rest =>
    if h : v = [] then none
    else runVec (v.dropLast ++ [!(v.getLast h)]) rest

/-- Position of the first false value of a boolean vector, `-1` when all
values are true (the abstraction function of the compact representation). -/
def ffp : List Bool → Int
  | [] => -1
  | false :: _ => 0
  | true :: rest => if ffp rest = -1 then -1 else ffp rest + 1

/-- Value of a little-endian base-256 digit list (the number the
`decodeLoop` recombination computes). -/
def baseVal : List Nat → Nat
  | [] => 0
  | b :: rest => b + 256 * baseVal rest

/-! ### Stack primitives: characterizations of `takeElements` and
`readElements` -/

theorem varsDesc_succ (c m : Nat) :
    varsDesc c (m + 1) = varsDesc (c + 1) m ++ [Expr.var c] := by
  induction m with
  | zero => simp [varsDesc]
  | succ m ih =>
    rw [show varsDesc c (m + 1 + 1) = Expr.var (c + (m + 1)) :: varsDesc c (m + 1) from rfl,
        ih, show varsDesc (c + 1) (m + 1) = Expr.var (c + 1 + m) :: varsDesc (c + 1) m from rfl]
    simp [Nat.add_assoc, Nat.add_comm 1 m]

theorem varsAsc_reverse (m : Nat) : ∀ c, (varsAsc c m).reverse = varsDesc c m := by
  induction m with
  | zero => intro c; simp [varsAsc, varsDesc]
  | succ m ih =>
    intro c
    rw [show varsAsc c (m + 1) = Expr.var c :: varsAsc (c + 1) m from rfl]
    simp only [List.reverse_cons, ih, varsDesc_succ]

theorem varsAsc_length (m : Nat) : ∀ c, (varsAsc c m).length = m := by
  induction m with
  | zero => intro c; simp [varsAsc]
  | succ m ih => intro c; simp [varsAsc, ih]

theorem takeLoop_spec (n : Nat) : ∀ (s : AnState) (res : List Expr),
    AnState.takeLoop n s res =
      (varsDesc s.varCounter (n - s.stack.length) ++ (s.stack.take n).reverse ++ res,
       { s with stack := s.stack.drop n,
                varCounter := s.varCounter + (n - s.stack.length) }) := by
  induction n with
  | zero => intro s res; simp [AnState.takeLoop, varsDesc]
  | succ n ih =>
    intro s res
    match hs : s.stack with
    | x :: rest =>
      simp only [AnState.takeLoop, hs, ih, List.take_succ_cons, List.drop_succ_cons,
        List.reverse_cons, List.length_cons, List.append_assoc, List.cons_append,
        List.singleton_append, Nat.succ_sub_succ]
      simp
    | [] =>
      simp only [AnState.takeLoop, hs, ih]
      simp only [List.length_nil, Nat.sub_zero, List.take_nil, List.reverse_nil,
        List.nil_append, List.drop_nil, varsDesc_succ, List.append_assoc,
        List.singleton_append]
      have harith : s.varCounter + 1 + n = s.varCounter + (n + 1) := by omega
      rw [harith]

theorem takeElements_spec (s : AnState) (n : Nat) :
    s.takeElements n =
      (varsDesc s.varCounter (n - s.stack.length) ++ (s.stack.take n).reverse,
       { s with stack := s.stack.drop n,
                varCounter := s.varCounter + (n - s.stack.length) }) := by
  simpa using takeLoop_spec n s []

theorem readPadLoop_spec (m : Nat) : ∀ s : AnState,
    AnState.readPadLoop m s =
      { s with stack := s.stack ++ varsAsc s.varCounter m,
               varCounter := s.varCounter + m } := by
  induction m with
  | zero => intro s; simp [AnState.readPadLoop, varsAsc]
  | succ m ih =>
    intro s
    rw [AnState.readPadLoop, ih]
    simp [varsAsc, Nat.add_assoc, Nat.add_comm 1 m]

theorem readElements_spec (s : AnState) (n : Nat) :
    s.readElements n =
      (varsDesc s.varCounter (n - s.stack.length) ++ (s.stack.take n).reverse,
       { s with stack := s.stack ++ varsAsc s.varCounter (n - s.stack.length),
                varCounter := s.varCounter + (n - s.stack.length) }) := by
  rw [AnState.readElements, readPadLoop_spec]
  by_cases h : n ≤ s.stack.length
  · have hm : n - s.stack.length = 0 := Nat.sub_eq_zero_of_le h
    simp [hm, varsAsc, varsDesc]
  · push_neg at h
    have hlen : (s.stack ++ varsAsc s.varCounter (n - s.stack.length)).length = n := by
      simp [varsAsc_length]
      omega
    have htake : (s.stack ++ varsAsc s.varCounter (n - s.stack.length)).take n =
        s.stack ++ varsAsc s.varCounter (n - s.stack.length) := by
      rw [List.take_of_length_le (le_of_eq hlen)]
    have htake2 : s.stack.take n = s.stack :=
      List.take_of_length_le (le_of_lt h)
    simp [htake, htake2, varsAsc_reverse]

/-! ### Condition stack: simulation with the materialized boolean vector -/

theorem ffp_bounds (v : List Bool) :
    ffp v = -1 ∨ (0 ≤ ffp v ∧ ffp v < (v.length : Int)) := by
  induction v with
  | nil => left; rfl
  | cons b rest ih =>
    cases b
    · right
      refine ⟨le_refl 0, ?_⟩
      simp only [ffp, List.length_cons]
      push_cast
      omega
    · by_cases h : ffp rest = -1
      · left; simp [ffp, h]
      · right
        rcases ih with h' | ⟨h1, h2⟩
        · exact absurd h' h
        · simp only [ffp, h, if_false, List.length_cons]
          push_cast
          omega

theorem ffp_eq_neg_one_iff (v : List Bool) : ffp v = -1 ↔ v.all id = true := by
  induction v with
  | nil => simp [ffp]
  | cons b rest ih =>
    cases b
    · simp [ffp]
    · by_cases h : ffp rest = -1
      · simp [ffp, h, ih.mp h]
      · have hb : 0 ≤ ffp rest := by
          rcases ffp_bounds rest with h' | ⟨h1, _⟩
          · exact absurd h' h
          · exact h1
        simp only [ffp, h, if_false, List.all_cons, id, Bool.true_and]
        constructor
        · intro h'; omega
        · intro h'; exact absurd (ih.mpr h') h

theorem ffp_append_singleton (v : List Bool) (f : Bool) :
    ffp (v ++ [f]) =
      if ffp v = -1 then (if f then -1 else (v.length : Int)) else ffp v := by
  induction v with
  | nil => cases f <;> simp [ffp]
  | cons b rest ih =>
    cases b
    · simp [ffp]
    · rw [show ((true :: rest) ++ [f]) = true :: (rest ++ [f]) from rfl,
          show ffp (true :: (rest ++ [f])) =
            (if ffp (rest ++ [f]) = -1 then -1 else ffp (rest ++ [f]) + 1) from rfl,
          ih,
          show ffp (true :: rest) =
            (if ffp rest = -1 then -1 else ffp rest + 1) from rfl]
      rcases ffp_bounds rest with h | ⟨h1, h2⟩
      · cases f
        · have hl : ¬((rest.length : Int) = -1) := by omega
          simp only [h, if_true, Bool.false_eq_true, if_false, hl, List.length_cons]
          push_cast
          ring
        · simp [h]
      · have h : ¬ ffp rest = -1 := by omega
        have h' : ¬(ffp rest + 1 = -1) := by omega
        simp [h, h']

theorem push_back_sim (cs : ConditionStack) (v : List Bool) (f : Bool)
    (hsize : cs.m_stack_size = (v.length : Int))
    (hffp : cs.m_first_false_pos = ffp v) :
    (cs.push_back f).m_stack_size = ((v ++ [f]).length : Int)
    ∧ (cs.push_back f).m_first_false_pos = ffp (v ++ [f]) := by
  constructor
  · simp only [ConditionStack.push_back]
    by_cases h : (cs.m_first_false_pos == NO_FALSE && !f) = true <;>
      simp [h, hsize]
  · simp only [ConditionStack.push_back, ffp_append_singleton, ← hffp, ← hsize, NO_FALSE]
    by_cases h : cs.m_first_false_pos = -1
    · cases f <;> simp [h]
    · cases f <;> simp [h]

theorem pop_back_sim (cs : ConditionStack) (v : List Bool)
    (hsize : cs.m_stack_size = (v.length : Int))
    (hffp : cs.m_first_false_pos = ffp v) (hne : v ≠ []) :
    ∃ cs', cs.pop_back = some cs'
      ∧ cs'.m_stack_size = ((v.dropLast).length : Int)
      ∧ cs'.m_first_false_pos = ffp v.dropLast := by
  have hlen : 0 < v.length := List.length_pos.mpr hne
  have hv : v.dropLast ++ [v.getLast hne] = v := List.dropLast_append_getLast hne
  have hlen2 : v.dropLast.length = v.length - 1 := List.length_dropLast v
  have hsize2 : ((v.dropLast.length : Nat) : Int) = cs.m_stack_size - 1 := by
    rw [hsize, hlen2]
    omega
  have hffp2 : ffp v =
      if ffp v.dropLast = -1 then
        (if v.getLast hne then -1 else (v.dropLast.length : Int))
      else ffp v.dropLast := by
    conv_lhs => rw [← hv]
    exact ffp_append_singleton _ _
  have hpos : ¬(cs.m_stack_size ≤ 0) := by rw [hsize]; omega
  rcases ffp_bounds v.dropLast with hd | ⟨hd1, hd2⟩
  · cases hgl : v.getLast hne
    · -- last value false, prefix all true: popping resets to NO_FALSE
      rw [hffp2, hd, hgl] at hffp
      simp only [if_true, Bool.false_eq_true, if_false] at hffp
      have hcond : (cs.m_first_false_pos == cs.m_stack_size - 1) = true := by
        simp only [beq_iff_eq, hffp, hsize2]
      refine ⟨⟨cs.m_stack_size - 1, NO_FALSE⟩, ?_, ?_, ?_⟩
      · simp only [ConditionStack.pop_back, hpos, if_false, hcond, if_true]
      · simpa using hsize2.symm
      · simp [hd, NO_FALSE]
    · -- last value true, prefix all true: everything stays all-true
      rw [hffp2, hd, hgl] at hffp
      simp only [if_true] at hffp
      have hcond : (cs.m_first_false_pos == cs.m_stack_size - 1) = false := by
        simp only [beq_eq_false_iff_ne, ne_eq, hffp, hsize]
        omega
      refine ⟨⟨cs.m_stack_size - 1, cs.m_first_false_pos⟩, ?_, ?_, ?_⟩
      · simp only [ConditionStack.pop_back, hpos, if_false, hcond, Bool.false_eq_true,
          if_false]
      · simpa using hsize2.symm
      · simp [hd, hffp]
  · -- the first false lies inside the prefix and survives the pop
    have hd : ¬(ffp v.dropLast = -1) := by omega
    rw [hffp2, if_neg hd] at hffp
    have hcond : (cs.m_first_false_pos == cs.m_stack_size - 1) = false := by
      simp only [beq_eq_false_iff_ne, ne_eq, hffp]
      rw [← hsize2]
      omega
    refine ⟨⟨cs.m_stack_size - 1, cs.m_first_false_pos⟩, ?_, ?_, ?_⟩
    · simp only [ConditionStack.pop_back, hpos, if_false, hcond, Bool.false_eq_true,
        if_false]
    · simpa using hsize2.symm
    · simpa using hffp

theorem toggle_top_sim (cs : ConditionStack) (v : List Bool)
    (hsize : cs.m_stack_size = (v.length : Int))
    (hffp : cs.m_first_false_pos = ffp v) (hne : v ≠ []) :
    ∃ cs', cs.toggle_top = some cs'
      ∧ cs'.m_stack_size = ((v.dropLast ++ [!(v.getLast hne)]).length : Int)
      ∧ cs'.m_first_false_pos = ffp (v.dropLast ++ [!(v.getLast hne)]) := by
  have hlen : 0 < v.length := List.length_pos.mpr hne
  have hv : v.dropLast ++ [v.getLast hne] = v := List.dropLast_append_getLast hne
  have hlen2 : v.dropLast.length = v.length - 1 := List.length_dropLast v
  have hlen3 : ((v.dropLast ++ [!(v.getLast hne)]).length : Int) = cs.m_stack_size := by
    simp only [List.length_append, List.length_singleton, hlen2, hsize]
    push_cast
    omega
  have hdl : ((v.dropLast.length : Nat) : Int) = cs.m_stack_size - 1 := by
    rw [hsize, hlen2]
    omega
  have hffp2 : ffp v =
      if ffp v.dropLast = -1 then
        (if v.getLast hne then -1 else (v.dropLast.length : Int))
      else ffp v.dropLast := by
    conv_lhs => rw [← hv]
    exact ffp_append_singleton _ _
  have hffp3 : ffp (v.dropLast ++ [!(v.getLast hne)]) =
      if ffp v.dropLast = -1 then
        (if !(v.getLast hne) then -1 else (v.dropLast.length : Int))
      else ffp v.dropLast := ffp_append_singleton _ _
  have hpos : ¬(cs.m_stack_size ≤ 0) := by rw [hsize]; omega
  rcases ffp_bounds v.dropLast with hd | ⟨hd1, hd2⟩
  · cases hgl : v.getLast hne
    · -- top false, prefix all true: toggling makes everything true
      rw [hffp2, hd, hgl] at hffp
      simp only [if_true, Bool.false_eq_true, if_false] at hffp
      have h1 : (cs.m_first_false_pos == NO_FALSE) = false := by
        simp only [beq_eq_false_iff_ne, ne_eq, hffp, NO_FALSE]
        omega
      have h2 : (cs.m_first_false_pos == cs.m_stack_size - 1) = true := by
        simp only [beq_iff_eq, hffp, hdl]
      rw [hgl] at hffp3
      refine ⟨⟨cs.m_stack_size, NO_FALSE⟩, ?_, ?_, ?_⟩
      · simp only [ConditionStack.toggle_top, hpos, if_false, h1, h2,
          Bool.false_eq_true, if_true]
      · simpa using hlen3.symm
      · rw [hffp3]
        simp [hd, NO_FALSE]
    · -- everything true: the top becomes the first false
      rw [hffp2, hd, hgl] at hffp
      simp only [if_true] at hffp
      have h1 : (cs.m_first_false_pos == NO_FALSE) = true := by
        simp [beq_iff_eq, hffp, NO_FALSE]
      rw [hgl] at hffp3
      refine ⟨⟨cs.m_stack_size, cs.m_stack_size - 1⟩, ?_, ?_, ?_⟩
      · simp only [ConditionStack.toggle_top, hpos, if_false, h1, if_true]
      · simpa using hlen3.symm
      · rw [hffp3]
        simp only [hd, if_true, Bool.not_true, Bool.false_eq_true, if_false]
        exact hdl.symm
  · -- a false below the top: toggling the top is unobservable
    have hd : ¬(ffp v.dropLast = -1) := by omega
    rw [hffp2, if_neg hd] at hffp
    have h1 : (cs.m_first_false_pos == NO_FALSE) = false := by
      simp only [beq_eq_false_iff_ne, ne_eq, hffp, NO_FALSE]
      omega
    have h2 : (cs.m_first_false_pos == cs.m_stack_size - 1) = false := by
      simp only [beq_eq_false_iff_ne, ne_eq, hffp]
      rw [← hdl]
      omega
    refine ⟨cs, ?_, ?_, ?_⟩
    · simp only [ConditionStack.toggle_top, hpos, if_false, h1, h2, Bool.false_eq_true,
        if_false]
    · simpa using hlen3.symm
    · rw [hffp3, if_neg hd]
      exact hffp

theorem runCs_sim : ∀ (ops : List CsOp) (cs : ConditionStack) (v : List Bool),
    cs.m_stack_size = (v.length : Int) → cs.m_first_false_pos = ffp v →
    ∀ v', runVec v ops = some v' →
      ∃ cs', runCs cs ops = some cs'
        ∧ cs'.m_stack_size = ((v'.length : Nat) : Int)
        ∧ cs'.m_first_false_pos = ffp v' := by
  intro ops
  induction ops with
  | nil =>
    intro cs v hsize hffp v' hrun
    simp only [runVec, Option.some.injEq] at hrun
    subst hrun
    exact ⟨cs, rfl, hsize, hffp⟩
  | cons o rest ih =>
    intro cs v hsize hffp v' hrun
    cases o with
    | push f =>
      simp only [runVec] at hrun
      obtain ⟨h1, h2⟩ := push_back_sim cs v f hsize hffp
      obtain ⟨cs', hcs', hs', hf'⟩ := ih (cs.push_back f) (v ++ [f]) h1 h2 v' hrun
      exact ⟨cs', by simpa [runCs] using hcs', hs', hf'⟩
    | pop =>
      simp only [runVec] at hrun
      by_cases hv : v = []
      · simp [hv] at hrun
      · rw [if_neg hv] at hrun
        obtain ⟨cs1, hpop, h1, h2⟩ := pop_back_sim cs v hsize hffp hv
        obtain ⟨cs', hcs', hs', hf'⟩ := ih cs1 v.dropLast h1 h2 v' hrun
        refine ⟨cs', ?_, hs', hf'⟩
        simp only [runCs, hpop]
        exact hcs'
    | toggle =>
      simp only [runVec] at hrun
      by_cases hv : v = []
      · simp [hv] at hrun
      · rw [dif_neg hv] at hrun
        obtain ⟨cs1, htog, h1, h2⟩ := toggle_top_sim cs v hsize hffp hv
        obtain ⟨cs', hcs', hs', hf'⟩ := ih cs1 _ h1 h2 v' hrun
        refine ⟨cs', ?_, hs', hf'⟩
        simp only [runCs, htog]
        exact hcs'

/-- C7: for every operation history that never pops or toggles an empty
stack (i.e. that the materialized boolean vector can execute), the
compact `(m_stack_size, m_first_false_pos)` condition stack started from
`init` runs without throwing, and afterwards `empty()` agrees with the
vector being empty and `all_true()` with the conjunction of its values. -/
theorem c7_condition_stack_refines_vector (ops : List CsOp) (v : List Bool)
    (h : runVec [] ops = some v) :
    ∃ cs, runCs ConditionStack.init ops = some cs
      ∧ cs.empty = v.isEmpty ∧ cs.all_true = v.all id := by
  obtain ⟨cs, hcs, hsize, hffp⟩ :=
    runCs_sim ops ConditionStack.init [] rfl rfl v h
  refine ⟨cs, hcs, ?_, ?_⟩
  · rw [ConditionStack.empty, hsize]
    cases v with
    | nil => simp
    | cons a t =>
      simp only [List.length_cons, List.isEmpty_cons, beq_iff_eq]
      simp only [beq_eq_false_iff_ne, ne_eq]
      push_cast
      omega
  · rw [ConditionStack.all_true, hffp, NO_FALSE]
    by_cases hall : v.all id = true
    · simp [(ffp_eq_neg_one_iff v).mpr hall, hall]
    · have : ¬(ffp v = -1) := fun hc => hall ((ffp_eq_neg_one_iff v).mp hc)
      simp only [Bool.not_eq_true] at hall
      simp [hall, beq_eq_false_iff_ne, this]

/-- Witness for C7 on a concrete operation history. -/
theorem c7_condition_stack_refines_vector_witness :
    runVec [] [CsOp.push true, CsOp.push false, CsOp.toggle, CsOp.pop, CsOp.push true] =
      some [true, true]
    ∧ ∃ cs, runCs ConditionStack.init
          [CsOp.push true, CsOp.push false, CsOp.toggle, CsOp.pop, CsOp.push true] =
          some cs
        ∧ cs.empty = ([true, true] : List Bool).isEmpty
        ∧ cs.all_true = ([true, true] : List Bool).all id :=
  ⟨rfl, c7_condition_stack_refines_vector
    [CsOp.push true, CsOp.push false, CsOp.toggle, CsOp.pop, CsOp.push true]
    [true, true] rfl⟩

/-- C10: `readElements(k)` returns the same bottom-to-top list as
`takeElements(k)` would from the same state, with the same fresh-variable
numbering; the freshly drawn block lists indices descending towards the
bottom, so the drawn slot nearest the stack top gets the smallest new
index; `takeElements` removes the returned slots while `readElements`
leaves the padded stack holding exactly them above the surviving slots. -/
theorem c10_read_take_agree (s : AnState) (n : Nat) :
    (s.readElements n).1 = (s.takeElements n).1
    ∧ (s.readElements n).2.varCounter = (s.takeElements n).2.varCounter
    ∧ (s.readElements n).2.stack = (s.readElements n).1.reverse ++ (s.takeElements n).2.stack
    ∧ (s.takeElements n).1 =
        varsDesc s.varCounter (n - s.stack.length) ++ (s.stack.take n).reverse := by
  rw [takeElements_spec, readElements_spec]
  refine ⟨rfl, rfl, ?_, rfl⟩
  simp only [List.reverse_append, List.reverse_reverse, varsAsc_reverse]
  by_cases h : n ≤ s.stack.length
  · have hm : n - s.stack.length = 0 := Nat.sub_eq_zero_of_le h
    simp only [hm, varsAsc, varsDesc, List.append_nil, List.reverse_nil, List.nil_append]
    exact (List.take_append_drop n s.stack).symm
  · push_neg at h
    have htake2 : s.stack.take n = s.stack := List.take_of_length_le (le_of_lt h)
    have hdrop : s.stack.drop n = [] := List.drop_eq_nil_of_le (le_of_lt h)
    rw [htake2, hdrop]
    simp [← varsAsc_reverse]

/-! ### Integer codec: round trip of `Int.encode` / `Int.decode` -/

namespace ScriptConv

theorem land_255_eq_mod (m : Nat) : m &&& 0xff = m % 256 := by
  have h := Nat.and_pow_two_sub_one_eq_mod m 8
  norm_num at h
  exact h

theorem shiftRight_8_eq_div (m : Nat) : m >>> 8 = m / 256 := by
  rw [Nat.shiftRight_eq_div_pow]

theorem natDigits_eq (m : Nat) :
    natDigits m = if m = 0 then [] else (m % 256) :: natDigits (m / 256) := by
  rw [natDigits, land_255_eq_mod, shiftRight_8_eq_div]

theorem natDigits_mem_lt {m b : Nat} (h : b ∈ natDigits m) : b < 256 := by
  induction m using Nat.strong_induction_on with
  | _ m ih =>
    rw [natDigits_eq] at h
    by_cases hm : m = 0
    · simp [hm] at h
    · rw [if_neg hm] at h
      rcases List.mem_cons.mp h with h' | h'
      · rw [h']; exact Nat.mod_lt _ (by norm_num)
      · exact ih (m / 256) (Nat.div_lt_self (Nat.pos_of_ne_zero hm) (by norm_num)) h'

theorem baseVal_natDigits (m : Nat) : baseVal (natDigits m) = m := by
  induction m using Nat.strong_induction_on with
  | _ m ih =>
    rw [natDigits_eq]
    by_cases hm : m = 0
    · simp [hm, baseVal]
    · rw [if_neg hm]
      rw [show baseVal (m % 256 :: natDigits (m / 256)) =
        m % 256 + 256 * baseVal (natDigits (m / 256)) from rfl]
      rw [ih (m / 256) (Nat.div_lt_self (Nat.pos_of_ne_zero hm) (by norm_num))]
      exact Nat.mod_add_div m 256

theorem natDigits_ne_nil {m : Nat} (hm : m ≠ 0) : natDigits m ≠ [] := by
  rw [natDigits_eq, if_neg hm]
  exact List.cons_ne_nil _ _

theorem baseVal_append_zero (l : List Nat) : baseVal (l ++ [0]) = baseVal l := by
  induction l with
  | nil => simp [baseVal]
  | cons b rest ih => simp [baseVal, ih]

theorem lor_shiftLeft_eq_add {a : Nat} (b k : Nat) (h : a < 2 ^ k) :
    a ||| (b <<< k) = a + b * 2 ^ k := by
  apply Nat.eq_of_testBit_eq
  intro i
  rw [Nat.testBit_lor, Nat.testBit_shiftLeft]
  by_cases hik : i < k
  · have h1 : (decide (i ≥ k) && b.testBit (i - k)) = false := by
      simp
      omega
    rw [h1, Bool.or_false]
    have hmod : (a + b * 2 ^ k) % 2 ^ k = a := by
      rw [Nat.add_mul_mod_self_right]
      exact Nat.mod_eq_of_lt h
    have h2 := Nat.testBit_mod_two_pow (a + b * 2 ^ k) k i
    rw [hmod, decide_eq_true hik, Bool.true_and] at h2
    exact h2
  · have hk : k ≤ i := Nat.not_lt.mp hik
    have h1 : a.testBit i = false :=
      Nat.testBit_lt_two_pow
        (lt_of_lt_of_le h (Nat.pow_le_pow_right (by norm_num) hk))
    rw [h1, Bool.false_or]
    have hd : decide (i ≥ k) = true := by simp [hk]
    rw [hd, Bool.true_and]
    have hdiv : (a + b * 2 ^ k) / 2 ^ i = b / 2 ^ (i - k) := by
      have h2 : (2 : Nat) ^ i = 2 ^ k * 2 ^ (i - k) := by
        rw [← pow_add]
        congr 1
        omega
      rw [h2, ← Nat.div_div_eq_div_mul]
      have h3 : (a + b * 2 ^ k) / 2 ^ k = b := by
        rw [Nat.mul_comm b, Nat.add_mul_div_left a b (Nat.two_pow_pos k),
          Nat.div_eq_of_lt h]
        omega
      rw [h3]
    rw [Nat.testBit_to_div_mod, Nat.testBit_to_div_mod, hdiv]

theorem decodeLoop_eq (l : List Nat) : ∀ (i n : Nat),
    (∀ b ∈ l, b < 256) → n < 2 ^ (8 * i) →
    decodeLoop l i n = n + baseVal l * 2 ^ (8 * i) := by
  induction l with
  | nil => intro i n _ _; simp [decodeLoop, baseVal]
  | cons b rest ih =>
    intro i n hb hn
    have hb0 : b < 256 := hb b (List.mem_cons_self b rest)
    have hbr : ∀ x ∈ rest, x < 256 := fun x hx => hb x (List.mem_cons_of_mem _ hx)
    rw [show decodeLoop (b :: rest) i n =
      decodeLoop rest (i + 1) (n ||| (b <<< (i * 8))) from rfl]
    have hsh : n ||| (b <<< (i * 8)) = n + b * 2 ^ (8 * i) := by
      rw [Nat.mul_comm i 8]
      exact lor_shiftLeft_eq_add b (8 * i) hn
    rw [hsh]
    have hlt : n + b * 2 ^ (8 * i) < 2 ^ (8 * (i + 1)) := by
      have : 2 ^ (8 * (i + 1)) = 2 ^ (8 * i) * 256 := by
        rw [Nat.mul_succ, pow_add]
        norm_num
      rw [this]
      nlinarith [Nat.two_pow_pos (8 * i)]
    rw [ih (i + 1) _ hbr hlt]
    rw [show baseVal (b :: rest) = b + 256 * baseVal rest from rfl]
    have : (2 : Nat) ^ (8 * (i + 1)) = 2 ^ (8 * i) * 256 := by
      rw [Nat.mul_succ, pow_add]
      norm_num
    rw [this]
    ring

theorem decodeLoop_from_zero (l : List Nat) (hb : ∀ b ∈ l, b < 256) :
    decodeLoop l 0 0 = baseVal l := by
  have := decodeLoop_eq l 0 0 hb (by norm_num)
  simpa using this

set_option maxRecDepth 4000 in
theorem byte_land_128 : ∀ x < 256, (x &&& 128 ≠ 0 ↔ 128 ≤ x) := by decide

set_option maxRecDepth 4000 in
theorem byte_lor_128 : ∀ x < 128, x ||| 128 = x + 128 := by decide

set_option maxRecDepth 4000 in
theorem byte_land_127 : ∀ x < 128, (x + 128) &&& 127 = x := by decide

set_option maxRecDepth 4000 in
theorem byte_land_128_low : ∀ x < 128, x &&& 128 = 0 := by decide

/-- Unfolding of `Int_decode` on a buffer with an explicit last byte. -/
theorem Int_decode_concat (l : List Nat) (x : Nat) :
    Int_decode (l ++ [x]) =
      (if x &&& 0x80 ≠ 0 then -((decodeLoop (l ++ [x &&& 0x7f]) 0 0 : Nat) : Int)
       else ((decodeLoop (l ++ [x]) 0 0 : Nat) : Int)) := by
  have h1 : (l ++ [x]).getLast? = some x := List.getLast?_concat l
  simp only [Int_decode, h1, List.dropLast_concat]
  by_cases hneg : x &&& 128 ≠ 0 <;> simp [hneg]

/-- C8: decoding an encoded integer gives the integer back for every
`n` with `|n| ≤ 0x7fffffff` (the range in which the JS arithmetic of the
source coincides with the model). -/
theorem c8_int_codec_round_trip (n : Int) (h : n.natAbs ≤ 0x7fffffff) :
    Int_decode (Int_encode n) = n := by
  by_cases hn0 : n = 0
  · subst hn0
    have hd0 : natDigits (0 : Nat) = [] := by
      rw [natDigits_eq]
      simp
    have henc : Int_encode 0 = [] := by
      simp only [Int_encode, Int.natAbs_zero, hd0, List.getLast?_nil]
    rw [henc]
    rfl
  · have hm0 : n.natAbs ≠ 0 := fun hc => hn0 (Int.natAbs_eq_zero.mp hc)
    obtain ⟨ds, hds⟩ : ∃ l, l = natDigits n.natAbs := ⟨_, rfl⟩
    have hdsne : ds ≠ [] := hds ▸ natDigits_ne_nil hm0
    have hmem : ∀ b ∈ ds, b < 256 := fun b hb => natDigits_mem_lt (hds ▸ hb)
    have hval : baseVal ds = n.natAbs := by rw [hds, baseVal_natDigits]
    obtain ⟨last, hlastdef⟩ : ∃ x, x = ds.getLast hdsne := ⟨_, rfl⟩
    have hlastq : ds.getLast? = some last := by
      rw [hlastdef]
      exact List.getLast?_eq_getLast ds hdsne
    have hlast_lt : last < 256 := hmem _ (hlastdef ▸ List.getLast_mem hdsne)
    have hdsdecomp : ds.dropLast ++ [last] = ds := by
      rw [hlastdef]
      exact List.dropLast_append_getLast hdsne
    have hmem' : ∀ b ∈ ds.dropLast, b < 256 := fun b hb =>
      hmem b (hdsdecomp ▸ List.mem_append.mpr (Or.inl hb))
    have habs : ((n.natAbs : Nat) : Int) = |n| := (Int.abs_eq_natAbs n).symm
    have hench : Int_encode n =
        (if last &&& 0x80 ≠ 0 then ds ++ [if n < 0 then 0x80 else 0x00]
         else if n < 0 then ds.dropLast ++ [last ||| 0x80]
         else ds) := by
      simp only [Int_encode, ← hds, hlastq]
    by_cases hhigh : last &&& 0x80 ≠ 0
    · -- the magnitude's top bit is set: a marker byte is appended
      rw [hench, if_pos hhigh]
      by_cases hneg : n < 0
      · -- marker 0x80: decode sees the sign and masks the marker to 0
        rw [if_pos hneg, Int_decode_concat]
        have h80 : (128 : Nat) &&& 128 ≠ 0 := by decide
        have h80m : (128 : Nat) &&& 127 = 0 := by decide
        rw [if_pos h80, h80m]
        have hb2 : ∀ b ∈ ds ++ [0], b < 256 := by
          intro b hb
          rcases List.mem_append.mp hb with hb | hb
          · exact hmem b hb
          · simp at hb
            omega
        rw [decodeLoop_from_zero _ hb2, baseVal_append_zero, hval]
        rw [habs, abs_of_neg hneg]
        ring
      · -- marker 0x00: positive, the marker does not change the value
        rw [if_neg hneg, Int_decode_concat]
        have h00 : ¬((0 : Nat) &&& 128 ≠ 0) := by decide
        rw [if_neg h00]
        have hb2 : ∀ b ∈ ds ++ [0], b < 256 := by
          intro b hb
          rcases List.mem_append.mp hb with hb | hb
          · exact hmem b hb
          · simp at hb
            omega
        rw [decodeLoop_from_zero _ hb2, baseVal_append_zero, hval]
        rw [habs, abs_of_nonneg (le_of_not_lt hneg)]
    · -- top bit clear: the sign bit lives in the top byte itself
      have hlow : last < 128 := by
        by_contra hc
        exact hhigh ((byte_land_128 last hlast_lt).mpr (Nat.le_of_not_lt hc))
      rw [hench, if_neg hhigh]
      by_cases hneg : n < 0
      · -- negative: the top byte carries the sign bit, decode strips it
        rw [if_pos hneg, Int_decode_concat, byte_lor_128 last hlow]
        have hsig : (last + 128) &&& 128 ≠ 0 :=
          (byte_land_128 (last + 128) (by omega)).mpr (by omega)
        rw [if_pos hsig, byte_land_127 last hlow, hdsdecomp]
        rw [decodeLoop_from_zero _ hmem, hval]
        rw [habs, abs_of_neg hneg]
        ring
      · -- positive: the encoding is the bare digit list
        rw [if_neg hneg, ← hdsdecomp, Int_decode_concat]
        have hns : ¬(last &&& 128 ≠ 0) := fun hc => hhigh hc
        rw [if_neg hns]
        have hb2 : ∀ b ∈ ds.dropLast ++ [last], b < 256 := by
          intro b hb
          rcases List.mem_append.mp hb with hb | hb
          · exact hmem' b hb
          · simp at hb
            omega
        rw [decodeLoop_from_zero _ hb2, hdsdecomp, hval]
        rw [habs, abs_of_nonneg (le_of_not_lt hneg)]

/-- Witness for C8 at a concrete input. -/
theorem c8_int_codec_round_trip_witness :
    ((-0x7fffffff : Int).natAbs ≤ 0x7fffffff)
    ∧ Int_decode (Int_encode (-0x7fffffff)) = -0x7fffffff :=
  ⟨by norm_num, c8_int_codec_round_trip (-0x7fffffff) (by norm_num)⟩

end ScriptConv

/-! ### Simplifier ordering pass: variant precedence after `normalizeExprs` -/

namespace Util

theorem normalizeExprs_eq_map (l : List Expr) :
    normalizeExprs l = (exprSort l).map normalizeElem := by
  rw [normalizeExprs]
  exact List.attach_map_val _ _

theorem exprPriority_normalizeElem (e : Expr) :
    exprPriority (normalizeElem e) = exprPriority e := by
  cases e with
  | bytes b => simp [normalizeElem]
  | var n => simp [normalizeElem]
  | app o a err =>
    simp only [normalizeElem]
    split <;> rfl

theorem exprCompareFn_priority {x y : Expr}
    (h : exprPriority x ≠ exprPriority y) :
    exprCompareFn x y = exprPriority y - exprPriority x := by
  cases x <;> cases y <;>
    first
      | (exact absurd rfl h)
      | simp [exprCompareFn, exprPriority]

theorem priority_le_of_cmp_le {x y : Expr} (h : exprCompareFn x y ≤ 0) :
    exprPriority y ≤ exprPriority x := by
  by_cases hp : exprPriority x = exprPriority y
  · omega
  · rw [exprCompareFn_priority hp] at h
    omega

theorem priority_le_of_cmp_pos {x y : Expr} (h : 0 < exprCompareFn x y) :
    exprPriority x ≤ exprPriority y := by
  by_cases hp : exprPriority x = exprPriority y
  · omega
  · rw [exprCompareFn_priority hp] at h
    omega

theorem pairwise_insertSorted (x : Expr) (l : List Expr)
    (h : l.Pairwise (fun a b => exprPriority b ≤ exprPriority a)) :
    (insertSorted x l).Pairwise (fun a b => exprPriority b ≤ exprPriority a) := by
  induction l with
  | nil => simp [insertSorted]
  | cons y ys ih =>
    rcases List.pairwise_cons.mp h with ⟨hy, hys⟩
    by_cases hc : exprCompareFn x y ≤ 0
    · rw [insertSorted, if_pos hc]
      refine List.pairwise_cons.mpr ⟨?_, h⟩
      intro b hb
      rcases List.mem_cons.mp hb with hb | hb
      · rw [hb]
        exact priority_le_of_cmp_le hc
      · exact le_trans (hy b hb) (priority_le_of_cmp_le hc)
    · rw [insertSorted, if_neg hc]
      refine List.pairwise_cons.mpr ⟨?_, ih hys⟩
      intro b hb
      rcases mem_insertSorted hb with hb | hb
      · rw [hb]
        exact priority_le_of_cmp_pos (by omega)
      · exact hy b hb

theorem pairwise_exprSort (l : List Expr) :
    (exprSort l).Pairwise (fun a b => exprPriority b ≤ exprPriority a) := by
  induction l with
  | nil => simp [exprSort]
  | cons y ys ih => exact pairwise_insertSorted y (exprSort ys) ih

/-- C3 (amended): after the canonical-ordering pass the variant
priorities (`Var` = 2, `App` = 1, `Bytes` = 0) are non-increasing along
the list: every `Var` precedes every `App` and every `App` precedes every
`Bytes`.  (The claim's order `App < Var` is the reverse of what the
comparator produces.) -/
theorem c3_normalize_variant_order (l : List Expr) :
    (normalizeExprs l).Pairwise (fun a b => exprPriority b ≤ exprPriority a) := by
  rw [normalizeExprs_eq_map, List.pairwise_map]
  refine (pairwise_exprSort l).imp ?_
  intro a b hab
  simpa [exprPriority_normalizeElem] using hab

/-- C3 counterexample: on the mixed list `[App, Var]` the
canonical-ordering pass puts the `Var` first, so the claimed order
`App < Var` fails at this concrete input. -/
theorem c3_counterexample :
    normalizeExprs [Expr.app opcodes.OP_NOT [Expr.var 0] none, Expr.var 1] =
      [Expr.var 1, Expr.app opcodes.OP_NOT [Expr.var 0] none] := by
  rw [normalizeExprs_eq_map]
  have hsort : exprSort [Expr.app opcodes.OP_NOT [Expr.var 0] none, Expr.var 1] =
      [Expr.var 1, Expr.app opcodes.OP_NOT [Expr.var 0] none] := by
    simp [exprSort, insertSorted, exprCompareFn, exprPriority]
  rw [hsort]
  have hvar : normalizeElem (Expr.var 1) = Expr.var 1 := by simp [normalizeElem]
  have hsub : normalizeExprs [Expr.var 0] = [Expr.var 0] := by
    rw [normalizeExprs_eq_map]
    have : exprSort [Expr.var 0] = [Expr.var 0] := by simp [exprSort, insertSorted]
    rw [this]
    simp [normalizeElem]
  have happ : normalizeElem (Expr.app opcodes.OP_NOT [Expr.var 0] none) =
      Expr.app opcodes.OP_NOT [Expr.var 0] none := by
    rw [normalizeElem]
    have hcont : nonNormalizedOpcodes.contains opcodes.OP_NOT = false := by
      simp [nonNormalizedOpcodes, opcodes.OP_NOT, opcodes.OP_CHECKMULTISIG,
        opcodes.OP_CHECKSIG, opcodes.OP_GREATERTHAN, opcodes.OP_GREATERTHANOREQUAL,
        opcodes.OP_LESSTHAN, opcodes.OP_LESSTHANOREQUAL, opcodes.OP_SUB,
        opcodes.OP_WITHIN]
    rw [hcont]
    simp [hsub]
  simp [hvar, happ]

end Util

/-! ### Analyzer step: unfolding equations and state-preservation lemmas -/

theorem analyzeStep_push_def (s : AnState) (b : List Nat) :
    analyzeStep s (.push b) =
      (if !s.cs.all_true then .next s none
       else finishIter { s with stack := .bytes b :: s.stack } none) := rfl

theorem analyzeStep_op_def (s : AnState) (code : Int) :
    analyzeStep s (.op code) =
      (if !s.cs.all_true &&
          (decide (code < opcodes.OP_IF) || decide (code > opcodes.OP_ENDIF)) then
        .next s none
       else opSwitch s s.cs.all_true code) := rfl

@[simp] theorem takeElements_snd_cs (s : AnState) (n : Nat) :
    (s.takeElements n).2.cs = s.cs := by rw [takeElements_spec]

@[simp] theorem takeElements_snd_altstack (s : AnState) (n : Nat) :
    (s.takeElements n).2.altstack = s.altstack := by rw [takeElements_spec]

@[simp] theorem takeElements_snd_conds (s : AnState) (n : Nat) :
    (s.takeElements n).2.spendingConditions = s.spendingConditions := by
  rw [takeElements_spec]

@[simp] theorem takeElements_snd_version (s : AnState) (n : Nat) :
    (s.takeElements n).2.version = s.version := by rw [takeElements_spec]

@[simp] theorem takeElements_snd_rules (s : AnState) (n : Nat) :
    (s.takeElements n).2.rules = s.rules := by rw [takeElements_spec]

@[simp] theorem readElements_snd_cs (s : AnState) (n : Nat) :
    (s.readElements n).2.cs = s.cs := by rw [readElements_spec]

@[simp] theorem readElements_snd_altstack (s : AnState) (n : Nat) :
    (s.readElements n).2.altstack = s.altstack := by rw [readElements_spec]

@[simp] theorem readElements_snd_conds (s : AnState) (n : Nat) :
    (s.readElements n).2.spendingConditions = s.spendingConditions := by
  rw [readElements_spec]

@[simp] theorem verify_snd_cs (s : AnState) : (s.verify).2.cs = s.cs := by
  simp only [AnState.verify]
  split <;> (try split) <;> simp

@[simp] theorem numFromStack_snd_cs (s : AnState) : (s.numFromStack).2.cs = s.cs := by
  simp only [AnState.numFromStack]
  split <;> (try split) <;> simp

@[simp] theorem pushAll_cs (s : AnState) (l : List Expr) :
    (s.pushAll l).cs = s.cs := rfl

namespace ConditionStack

@[simp] theorem push_back_size (cs : ConditionStack) (f : Bool) :
    (cs.push_back f).m_stack_size = cs.m_stack_size + 1 := by
  simp only [push_back]
  split <;> rfl

theorem pop_back_eq_none_iff (cs : ConditionStack) :
    cs.pop_back = none ↔ cs.m_stack_size ≤ 0 := by
  rw [pop_back]
  by_cases hg : cs.m_stack_size ≤ 0
  · simp [hg]
  · simp [hg]

theorem toggle_top_eq_none_iff (cs : ConditionStack) :
    cs.toggle_top = none ↔ cs.m_stack_size ≤ 0 := by
  rw [toggle_top]
  by_cases hg : cs.m_stack_size ≤ 0
  · simp [hg]
  · simp only [hg, if_false]
    constructor
    · intro hc
      split at hc <;> (try split at hc) <;> cases hc
    · intro hc
      exact hc.elim

theorem pop_back_some_size {cs cs' : ConditionStack} (h : cs.pop_back = some cs') :
    cs'.m_stack_size = cs.m_stack_size - 1 ∧ 0 < cs.m_stack_size := by
  rw [pop_back] at h
  by_cases hg : cs.m_stack_size ≤ 0
  · rw [if_pos hg] at h
    cases h
  · rw [if_neg hg] at h
    simp only [Option.some.injEq] at h
    refine ⟨?_, by omega⟩
    split at h <;> rw [← h]

theorem toggle_top_some_size {cs cs' : ConditionStack} (h : cs.toggle_top = some cs') :
    cs'.m_stack_size = cs.m_stack_size := by
  rw [toggle_top] at h
  by_cases hg : cs.m_stack_size ≤ 0
  · rw [if_pos hg] at h
    cases h
  · rw [if_neg hg] at h
    split at h <;> (try split at h) <;> (cases h; rfl)

end ConditionStack

theorem finishIter_csOk_none {s' : AnState} (h1 : 0 ≤ s'.cs.m_stack_size) :
    (finishIter s' none).csOk := by
  rw [finishIter]
  split <;> exact h1

theorem finishIter_csOk_some {s' f : AnState} (h1 : 0 ≤ s'.cs.m_stack_size)
    (h2 : 0 ≤ f.cs.m_stack_size) : (finishIter s' (some f)).csOk := by
  rw [finishIter]
  split <;> exact ⟨h1, h2⟩

set_option maxHeartbeats 2000000 in
theorem opSwitch_csOk (s : AnState) (fExec : Bool) (code : Int)
    (h : 0 ≤ s.cs.m_stack_size) : (opSwitch s fExec code).csOk := by
  rw [opSwitch.eq_def]
  split
  all_goals repeat' split
  all_goals try trivial
  all_goals try (apply finishIter_csOk_none; (try simp) <;> omega)
  all_goals try (apply finishIter_csOk_some <;> ((try simp) <;> omega))
  all_goals try
    (simp only [takeElements_snd_cs, readElements_snd_cs, numFromStack_snd_cs,
      verify_snd_cs])
  all_goals try (repeat' split)
  all_goals try trivial
  all_goals try (apply finishIter_csOk_none; (try simp) <;> omega)
  all_goals try (apply finishIter_csOk_some <;> ((try simp) <;> omega))
  all_goals try ((simp only [StepRes.csOk]) <;> ((try simp) <;> omega))
  all_goals try
    (exfalso
     simp_all [ConditionStack.empty, ConditionStack.toggle_top_eq_none_iff,
       ConditionStack.pop_back_eq_none_iff, beq_iff_eq] <;> omega)
  all_goals
    (rename_i heq
     first
     | (obtain ⟨h1, h2⟩ := ConditionStack.pop_back_some_size heq
        apply finishIter_csOk_none
        simp
        omega)
     | (have h1 := ConditionStack.toggle_top_some_size heq
        apply finishIter_csOk_none
        simp
        omega))

theorem analyzeStep_csOk (s : AnState) (item : Item) (h : 0 ≤ s.cs.m_stack_size) :
    (analyzeStep s item).csOk := by
  cases item with
  | push b =>
    rw [analyzeStep_push_def]
    split
    · exact h
    · exact finishIter_csOk_none h
  | op code =>
    rw [analyzeStep_op_def]
    split
    · exact h
    · exact opSwitch_csOk s _ code h

/-- C9: from any state whose implied condition-stack size is
non-negative (as every state reachable from the initial analyzer is),
`analyze` never raises the `'stack size <= 0'` exception of
`ConditionStack.pop_back`/`toggle_top`: the OP_ELSE and OP_ENDIF handlers
return `UNBALANCED_CONDITIONAL` on an empty condition stack before
calling them. -/
theorem c9_analyze_no_cs_throw (items : List Item) : ∀ s : AnState,
    0 ≤ s.cs.m_stack_size → analyze s items ≠ AOutcome.thrownCs := by
  induction items with
  | nil =>
    intro s h hcontra
    simp only [analyze] at hcontra
    (repeat' split at hcontra) <;> cases hcontra
  | cons item rest ih =>
    intro s h hcontra
    have hstep := analyzeStep_csOk s item h
    simp only [analyze] at hcontra
    split at hcontra
    · -- the step itself threw: contradicts csOk
      rename_i heq
      rw [heq] at hstep
      exact hstep
    · exact AOutcome.noConfusion hcontra
    · exact AOutcome.noConfusion hcontra
    · -- error return with a spawned fork: only the fork's analysis could throw
      rename_i e s' f heq
      rw [heq] at hstep
      obtain ⟨h1, h2⟩ := hstep
      split at hcontra
      all_goals first
        | exact AOutcome.noConfusion hcontra
        | (rename_i heq2
           exact ih f h2 heq2)
    · -- plain continuation
      rename_i s' heq
      rw [heq] at hstep
      exact ih s' hstep hcontra
    · -- continuation with a spawned fork
      rename_i s' f heq
      rw [heq] at hstep
      obtain ⟨h1, h2⟩ := hstep
      split at hcontra
      all_goals first
        | exact AOutcome.noConfusion hcontra
        | (rename_i heq2
           exact ih f h2 heq2)
        | exact ih s' h1 hcontra

theorem finishIter_eq_next {s' : AnState} (f : Option AnState)
    (h : s'.stack.length + s'.altstack.length ≤ 1000) :
    finishIter s' f = .next s' f := by
  rw [finishIter, if_neg (by omega)]

@[simp] theorem takeElements_snd_stack (s : AnState) (n : Nat) :
    (s.takeElements n).2.stack = s.stack.drop n := by rw [takeElements_spec]

/-- Taking exactly the length of an explicit top segment pops it and
draws no variables. -/
theorem takeElements_exact (s : AnState) {seg rest : List Expr}
    (h : s.stack = seg ++ rest) {n : Nat} (hn : seg.length = n) :
    s.takeElements n = (seg.reverse, { s with stack := rest }) := by
  subst hn
  rw [takeElements_spec, h]
  have h1 : (seg ++ rest).length = seg.length + rest.length := List.length_append _ _
  have h2 : seg.length - (seg ++ rest).length = 0 := by omega
  rw [h2, List.take_left, List.drop_left]
  simp [varsDesc]

/-- Reading a number from a concrete small top element. -/
theorem numFromStack_bytes (s : AnState) {b : List Nat} {rest : List Expr}
    (h : s.stack = Expr.bytes b :: rest) (hlen : b.length ≤ 4) :
    s.numFromStack = (.val (ScriptConv.Int_decode b), { s with stack := rest }) := by
  have ht : s.takeElements 1 = ([Expr.bytes b], { s with stack := rest }) := by
    have := @takeElements_exact s [Expr.bytes b] rest (by simpa using h) 1 rfl
    simpa using this
  simp only [AnState.numFromStack, ht, List.headI, if_pos hlen]

/-- Reading a number from a concrete top element longer than 4 bytes
yields `undefined`. -/
theorem numFromStack_bytes_overflow (s : AnState) {b : List Nat} {rest : List Expr}
    (h : s.stack = Expr.bytes b :: rest) (hlen : ¬(b.length ≤ 4)) :
    s.numFromStack = (.undef, { s with stack := rest }) := by
  have ht : s.takeElements 1 = ([Expr.bytes b], { s with stack := rest }) := by
    have := @takeElements_exact s [Expr.bytes b] rest (by simpa using h) 1 rfl
    simpa using this
  simp only [AnState.numFromStack, ht, List.headI, if_neg hlen]

/-! ### C1: dispatch gate when execution is off -/

/-- C1 counterexample: with the condition stack gating execution off
(`all_true()` false), `OP_VERIF` (0x65) is not skipped: it falls into the
switch's default arm and the path fails with `BAD_OPCODE`, so processing
does not leave the state unchanged and error-free as the claim states
for every opcode other than OP_IF/OP_NOTIF/OP_ELSE/OP_ENDIF. -/
theorem c1_counterexample :
    (AnState.mk 0 0 [] [] [] 0 ⟨1, 0⟩).cs.all_true = false
    ∧ analyzeStep (AnState.mk 0 0 [] [] [] 0 ⟨1, 0⟩) (.op opcodes.OP_VERIF) =
        .ret ScriptError.SCRIPT_ERR_BAD_OPCODE (AnState.mk 0 0 [] [] [] 0 ⟨1, 0⟩) none
    ∧ ∀ s' f, analyzeStep (AnState.mk 0 0 [] [] [] 0 ⟨1, 0⟩) (.op opcodes.OP_VERIF) ≠
        StepRes.next s' f := by
  refine ⟨rfl, rfl, ?_⟩
  intro s' f hcontra
  exact StepRes.noConfusion
    ((show analyzeStep (AnState.mk 0 0 [] [] [] 0 ⟨1, 0⟩) (.op opcodes.OP_VERIF) =
        .ret ScriptError.SCRIPT_ERR_BAD_OPCODE (AnState.mk 0 0 [] [] [] 0 ⟨1, 0⟩) none
      from rfl).symm.trans hcontra)

/-- C1 (amended): when `cs.all_true()` is false, a data push is always
skipped, and an opcode is skipped exactly when it lies outside the
numeric range `[OP_IF, OP_ENDIF]` (0x63–0x68).  This covers `OP_VER`
(0x62) but not `OP_VERIF`/`OP_VERNOTIF` (0x65/0x66), which instead fail
with `BAD_OPCODE`. -/
theorem c1_skip_amended (s : AnState) (h : s.cs.all_true = false) :
    (∀ b, analyzeStep s (.push b) = .next s none)
    ∧ (∀ code : Int, code < opcodes.OP_IF ∨ code > opcodes.OP_ENDIF →
        analyzeStep s (.op code) = .next s none) := by
  constructor
  · intro b
    rw [analyzeStep_push_def, h]
    rfl
  · intro code hcode
    rw [analyzeStep_op_def, h]
    have hc : (decide (code < opcodes.OP_IF) || decide (code > opcodes.OP_ENDIF)) = true := by
      rcases hcode with hc | hc <;> simp [hc]
    rw [hc]
    rfl

/-- Witness for C1 (amended): a gated-off state skips `OP_VER` and a push. -/
theorem c1_skip_amended_witness :
    (AnState.mk 0 0 [] [] [] 0 ⟨1, 0⟩).cs.all_true = false
    ∧ analyzeStep (AnState.mk 0 0 [] [] [] 0 ⟨1, 0⟩) (.op opcodes.OP_VER) =
        .next (AnState.mk 0 0 [] [] [] 0 ⟨1, 0⟩) none :=
  ⟨rfl, (c1_skip_amended (AnState.mk 0 0 [] [] [] 0 ⟨1, 0⟩) rfl).2 opcodes.OP_VER
    (Or.inl (by norm_num [opcodes.OP_VER, opcodes.OP_IF]))⟩

/-! ### C2: OP_NUMEQUALVERIFY never performs its verify step -/

/-- C2 (code-bug evidence): on a state with two concrete operands,
executing `OP_NUMEQUALVERIFY` pushes `App(OP_NUMEQUAL, [a, b])` and then
simply continues: the pushed result stays on the stack, nothing is
verified, no spending condition is appended and no `NUMEQUALVERIFY`
error can be produced, because the verify guard in this case group of
the source compares the opcode against `OP_EQUALVERIFY` (never true
there) instead of `OP_NUMEQUALVERIFY`. -/
theorem c2_numequalverify_never_verifies :
    analyzeStep
        (AnState.mk 0 0 [Expr.bytes [2], Expr.bytes [3]] [] [] 0 ConditionStack.init)
        (.op opcodes.OP_NUMEQUALVERIFY) =
      .next
        (AnState.mk 0 0
          [Expr.app opcodes.OP_NUMEQUAL [Expr.bytes [3], Expr.bytes [2]] none]
          [] [] 0 ConditionStack.init) none := rfl

/-! ### C6: checks after the end of the script -/

/-- C6: when the loop reaches the end of the script, a non-empty
condition stack fails `UNBALANCED_CONDITIONAL`; otherwise more than one
stack element fails `CLEANSTACK`; otherwise the final verify on the lone
element (a fresh variable when the stack is empty) fails `EVAL_FALSE` on
a concrete false value, appends a symbolic value to the spending
conditions and succeeds, and succeeds on the drawn variable for an empty
stack. -/
theorem c6_end_of_script (s : AnState) :
    (s.cs.empty = false → analyze s [] = .err ScriptError.SCRIPT_ERR_UNBALANCED_CONDITIONAL s)
    ∧ (s.cs.empty = true → 1 < s.stack.length →
        analyze s [] = .err ScriptError.SCRIPT_ERR_CLEANSTACK s)
    ∧ (∀ b, s.cs.empty = true → s.stack = [Expr.bytes b] →
        ScriptConv.Bool_decode b = false →
        analyze s [] = .err ScriptError.SCRIPT_ERR_EVAL_FALSE { s with stack := [] })
    ∧ (∀ e, s.cs.empty = true → s.stack = [e] → (∀ bb, e ≠ Expr.bytes bb) →
        analyze s [] = .ok { s with
          stack := [],
          spendingConditions := s.spendingConditions ++ [e] })
    ∧ (s.cs.empty = true → s.stack = [] →
        analyze s [] = .ok { s with
          spendingConditions := s.spendingConditions ++ [Expr.var s.varCounter],
          varCounter := s.varCounter + 1 }) := by
  refine ⟨?_, ?_, ?_, ?_, ?_⟩
  · intro h
    simp [analyze, h]
  · intro h1 h2
    simp only [analyze, h1, Bool.not_true, Bool.false_eq_true, if_false]
    rw [if_pos h2]
  · intro b h1 h2 h3
    have ht : s.takeElements 1 = ([Expr.bytes b], { s with stack := [] }) := by
      have := @takeElements_exact s [Expr.bytes b] [] (by simpa using h2) 1 rfl
      simpa using this
    have hv : s.verify = (false, { s with stack := [] }) := by
      simp [AnState.verify, ht, h3]
    simp only [analyze, h1, Bool.not_true, Bool.false_eq_true, if_false, h2,
      List.length_singleton, hv]
    norm_num
  · intro e h1 h2 he
    have ht : s.takeElements 1 = ([e], { s with stack := [] }) := by
      have := @takeElements_exact s [e] [] (by simpa using h2) 1 rfl
      simpa using this
    have hv : s.verify =
        (true, { s with
          stack := [],
          spendingConditions := s.spendingConditions ++ [e] }) := by
      rcases e with bb | n | ⟨o, a, err⟩
      · exact absurd rfl (he bb)
      · simp [AnState.verify, ht]
      · simp [AnState.verify, ht]
    simp only [analyze, h1, Bool.not_true, Bool.false_eq_true, if_false, h2,
      List.length_singleton, hv]
    norm_num
  · intro h1 h2
    have ht : s.takeElements 1 =
        ([Expr.var s.varCounter], { s with varCounter := s.varCounter + 1 }) := by
      rw [takeElements_spec, h2]
      simp [varsDesc]
    have hv : s.verify =
        (true, { s with
          spendingConditions := s.spendingConditions ++ [Expr.var s.varCounter],
          varCounter := s.varCounter + 1 }) := by
      simp only [AnState.verify, ht, List.headI]
    simp only [analyze, h1, Bool.not_true, Bool.false_eq_true, if_false, h2,
      List.length_nil, hv]
    norm_num

/-- Witness for C6 at concrete states: an unbalanced conditional, a
cleanstack failure and the final verify on an empty stack. -/
theorem c6_end_of_script_witness :
    ((AnState.mk 0 0 [] [] [] 0 ⟨1, 0⟩).cs.empty = false
      ∧ analyze (AnState.mk 0 0 [] [] [] 0 ⟨1, 0⟩) [] =
          .err ScriptError.SCRIPT_ERR_UNBALANCED_CONDITIONAL
            (AnState.mk 0 0 [] [] [] 0 ⟨1, 0⟩))
    ∧ analyze (AnState.mk 0 0 [] [] [] 0 ConditionStack.init) [] =
        .ok (AnState.mk 0 0 [] [] [Expr.var 0] 1 ConditionStack.init) :=
  ⟨⟨rfl, (c6_end_of_script (AnState.mk 0 0 [] [] [] 0 ⟨1, 0⟩)).1 rfl⟩,
   (c6_end_of_script (AnState.mk 0 0 [] [] [] 0 ConditionStack.init)).2.2.2.2 rfl rfl⟩

/-- Witness for C9 at a concrete state and script. -/
theorem c9_analyze_no_cs_throw_witness :
    (0 : Int) ≤ (AnState.mk 0 0 [] [] [] 0 ConditionStack.init).cs.m_stack_size
    ∧ analyze (AnState.mk 0 0 [] [] [] 0 ConditionStack.init)
        [.op opcodes.OP_ELSE, .op opcodes.OP_ENDIF] ≠ AOutcome.thrownCs :=
  ⟨by norm_num [ConditionStack.init],
   c9_analyze_no_cs_throw [.op opcodes.OP_ELSE, .op opcodes.OP_ENDIF]
     (AnState.mk 0 0 [] [] [] 0 ConditionStack.init)
     (by norm_num [ConditionStack.init])⟩

/-! ### C4 and C5: conditional forks and CHECKMULTISIG -/

/-- Dispatch of the OP_IF/OP_NOTIF arm of the switch. -/
theorem opSwitch_if_def (s : AnState) (fExec : Bool) (code : Int)
    (hc : code = opcodes.OP_IF ∨ code = opcodes.OP_NOTIF) :
    opSwitch s fExec code =
      (if fExec then
        if (s.version == ScriptVersion.SEGWITV1 ||
            (s.version == ScriptVersion.SEGWITV0 && s.rules == ScriptRules.ALL)) then
          finishIter
            { (s.takeElements 1).2 with
                cs := (s.takeElements 1).2.cs.push_back (code == opcodes.OP_IF),
                spendingConditions := (s.takeElements 1).2.spendingConditions ++
                  [.app opcodes.OP_EQUAL
                    [(s.takeElements 1).1.headI, .bytes ScriptConv.Bool_TRUE]
                    (some (if s.version == ScriptVersion.SEGWITV1 then
                        ScriptError.SCRIPT_ERR_TAPSCRIPT_MINIMALIF
                      else ScriptError.SCRIPT_ERR_MINIMALIF))] }
            (some { (s.takeElements 1).2 with
                cs := (s.takeElements 1).2.cs.push_back (!(code == opcodes.OP_IF)),
                spendingConditions := (s.takeElements 1).2.spendingConditions ++
                  [.app opcodes.OP_EQUAL
                    [(s.takeElements 1).1.headI, .bytes ScriptConv.Bool_FALSE]
                    (some (if s.version == ScriptVersion.SEGWITV1 then
                        ScriptError.SCRIPT_ERR_TAPSCRIPT_MINIMALIF
                      else ScriptError.SCRIPT_ERR_MINIMALIF))] })
        else
          finishIter
            { (s.takeElements 1).2 with
                cs := (s.takeElements 1).2.cs.push_back (code == opcodes.OP_IF),
                spendingConditions := (s.takeElements 1).2.spendingConditions ++
                  [(s.takeElements 1).1.headI] }
            (some { (s.takeElements 1).2 with
                cs := (s.takeElements 1).2.cs.push_back (!(code == opcodes.OP_IF)),
                spendingConditions := (s.takeElements 1).2.spendingConditions ++
                  [.app opcodes.INTERNAL_NOT [(s.takeElements 1).1.headI] none] })
      else
        finishIter { s with cs := s.cs.push_back false } none) := by
  rcases hc with h | h <;> subst h <;> rfl

/-- C4: OP_IF/OP_NOTIF under execution. -/
theorem c4_conditional_fork (s : AnState) (code : Int)
    (hexec : s.cs.all_true = true)
    (hcode : code = opcodes.OP_IF ∨ code = opcodes.OP_NOTIF)
    (hsize : s.stack.length + s.altstack.length ≤ 1000) :
    analyzeStep s (.op code) =
      (if (s.version == ScriptVersion.SEGWITV1 ||
            (s.version == ScriptVersion.SEGWITV0 && s.rules == ScriptRules.ALL)) then
        .next
          { (s.takeElements 1).2 with
              cs := (s.takeElements 1).2.cs.push_back (code == opcodes.OP_IF),
              spendingConditions := (s.takeElements 1).2.spendingConditions ++
                [.app opcodes.OP_EQUAL
                  [(s.takeElements 1).1.headI, .bytes ScriptConv.Bool_TRUE]
                  (some (if s.version == ScriptVersion.SEGWITV1 then
                      ScriptError.SCRIPT_ERR_TAPSCRIPT_MINIMALIF
                    else ScriptError.SCRIPT_ERR_MINIMALIF))] }
          (some { (s.takeElements 1).2 with
              cs := (s.takeElements 1).2.cs.push_back (!(code == opcodes.OP_IF)),
              spendingConditions := (s.takeElements 1).2.spendingConditions ++
                [.app opcodes.OP_EQUAL
                  [(s.takeElements 1).1.headI, .bytes ScriptConv.Bool_FALSE]
                  (some (if s.version == ScriptVersion.SEGWITV1 then
                      ScriptError.SCRIPT_ERR_TAPSCRIPT_MINIMALIF
                    else ScriptError.SCRIPT_ERR_MINIMALIF))] })
      else
        .next
          { (s.takeElements 1).2 with
              cs := (s.takeElements 1).2.cs.push_back (code == opcodes.OP_IF),
              spendingConditions := (s.takeElements 1).2.spendingConditions ++
                [(s.takeElements 1).1.headI] }
          (some { (s.takeElements 1).2 with
              cs := (s.takeElements 1).2.cs.push_back (!(code == opcodes.OP_IF)),
              spendingConditions := (s.takeElements 1).2.spendingConditions ++
                [.app opcodes.INTERNAL_NOT [(s.takeElements 1).1.headI] none] })) := by
  rw [analyzeStep_op_def, hexec, opSwitch_if_def s true code hcode]
  simp only [Bool.not_true, Bool.false_and, Bool.false_eq_true, if_false, if_true]
  by_cases hmin : (s.version == ScriptVersion.SEGWITV1 ||
      (s.version == ScriptVersion.SEGWITV0 && s.rules == ScriptRules.ALL)) = true
  · rw [if_pos hmin, if_pos hmin]
    refine finishIter_eq_next _ ?_
    simp only [takeElements_snd_stack, takeElements_snd_altstack, List.length_drop]
    omega
  · rw [if_neg hmin, if_neg hmin]
    refine finishIter_eq_next _ ?_
    simp only [takeElements_snd_stack, takeElements_snd_altstack, List.length_drop]
    omega

/-- Dispatch of the OP_CHECKMULTISIG arm of the switch. -/
theorem opSwitch_checkmultisig_def (s : AnState) (fExec : Bool) :
    opSwitch s fExec opcodes.OP_CHECKMULTISIG =
      (if s.version == ScriptVersion.SEGWITV1 then
        .ret ScriptError.SCRIPT_ERR_TAPSCRIPT_CHECKMULTISIG s none
      else
        let kr := s.numFromStack
        match kr.1 with
        | .thrown => .numThrow
        | .undef => .ret ScriptError.SCRIPT_ERR_NUM_OVERFLOW kr.2 none
        | .val k =>
          if k < 0 || k > 20 then
            .ret ScriptError.SCRIPT_ERR_PUBKEY_COUNT kr.2 none
          else
            let tp := kr.2.takeElements k.toNat
            let pks := tp.1
            let sr := tp.2.numFromStack
            match sr.1 with
            | .thrown => .numThrow
            | .undef => .ret ScriptError.SCRIPT_ERR_NUM_OVERFLOW sr.2 none
            | .val sc =>
              if sc < 0 || sc > k then
                .ret ScriptError.SCRIPT_ERR_SIG_COUNT sr.2 none
              else
                let ts := sr.2.takeElements sc.toNat
                let sigs := ts.1
                let td := ts.2.takeElements 1
                let dummy := td.1.headI
                let dummyCond : Expr :=
                  .app opcodes.OP_EQUAL [dummy, .bytes ScriptConv.Bool_FALSE]
                    (some ScriptError.SCRIPT_ERR_SIG_NULLDUMMY)
                let s6 :=
                  { td.2 with spendingConditions := td.2.spendingConditions ++ [dummyCond] }
                let cmsExpr : Expr :=
                  .app opcodes.OP_CHECKMULTISIG
                    (sigs ++ [.bytes (ScriptConv.Int_encode sc)] ++
                     pks ++ [.bytes (ScriptConv.Int_encode k)]) none
                finishIter { s6 with stack := cmsExpr :: s6.stack } none) := rfl

/-- C5: OP_CHECKMULTISIG. -/
theorem c5_checkmultisig (s : AnState) (hexec : s.cs.all_true = true) :
    ((s.version == ScriptVersion.SEGWITV1) = true →
      analyzeStep s (.op opcodes.OP_CHECKMULTISIG) =
        .ret ScriptError.SCRIPT_ERR_TAPSCRIPT_CHECKMULTISIG s none)
    ∧ (∀ (bk : List Nat) (rest : List Expr),
        (s.version == ScriptVersion.SEGWITV1) = false →
        s.stack = Expr.bytes bk :: rest → 4 < bk.length →
        analyzeStep s (.op opcodes.OP_CHECKMULTISIG) =
          .ret ScriptError.SCRIPT_ERR_NUM_OVERFLOW { s with stack := rest } none)
    ∧ (∀ (bk : List Nat) (rest : List Expr) (k : Int),
        (s.version == ScriptVersion.SEGWITV1) = false →
        s.stack = Expr.bytes bk :: rest → bk.length ≤ 4 →
        ScriptConv.Int_decode bk = k → k < 0 ∨ 20 < k →
        analyzeStep s (.op opcodes.OP_CHECKMULTISIG) =
          .ret ScriptError.SCRIPT_ERR_PUBKEY_COUNT { s with stack := rest } none)
    ∧ (∀ (bk bs : List Nat) (P rest : List Expr) (k : Int),
        (s.version == ScriptVersion.SEGWITV1) = false →
        s.stack = Expr.bytes bk :: (P ++ Expr.bytes bs :: rest) →
        bk.length ≤ 4 → ScriptConv.Int_decode bk = k → 0 ≤ k → k ≤ 20 →
        P.length = k.toNat → 4 < bs.length →
        analyzeStep s (.op opcodes.OP_CHECKMULTISIG) =
          .ret ScriptError.SCRIPT_ERR_NUM_OVERFLOW { s with stack := rest } none)
    ∧ (∀ (bk bs : List Nat) (P rest : List Expr) (k sc : Int),
        (s.version == ScriptVersion.SEGWITV1) = false →
        s.stack = Expr.bytes bk :: (P ++ Expr.bytes bs :: rest) →
        bk.length ≤ 4 → ScriptConv.Int_decode bk = k → 0 ≤ k → k ≤ 20 →
        P.length = k.toNat → bs.length ≤ 4 → ScriptConv.Int_decode bs = sc →
        sc < 0 ∨ k < sc →
        analyzeStep s (.op opcodes.OP_CHECKMULTISIG) =
          .ret ScriptError.SCRIPT_ERR_SIG_COUNT { s with stack := rest } none)
    ∧ (∀ (bk bs : List Nat) (P S : List Expr) (dummy : Expr) (rest : List Expr)
        (k sc : Int),
        (s.version == ScriptVersion.SEGWITV1) = false →
        s.stack = Expr.bytes bk :: (P ++ Expr.bytes bs :: (S ++ dummy :: rest)) →
        bk.length ≤ 4 → ScriptConv.Int_decode bk = k → 0 ≤ k → k ≤ 20 →
        P.length = k.toNat → bs.length ≤ 4 → ScriptConv.Int_decode bs = sc →
        0 ≤ sc → sc ≤ k → S.length = sc.toNat →
        rest.length + s.altstack.length < 1000 →
        analyzeStep s (.op opcodes.OP_CHECKMULTISIG) =
          .next
            { s with
              stack := Expr.app opcodes.OP_CHECKMULTISIG
                (S.reverse ++ [Expr.bytes (ScriptConv.Int_encode sc)] ++
                 P.reverse ++ [Expr.bytes (ScriptConv.Int_encode k)]) none :: rest,
              spendingConditions := s.spendingConditions ++
                [Expr.app opcodes.OP_EQUAL [dummy, Expr.bytes ScriptConv.Bool_FALSE]
                  (some ScriptError.SCRIPT_ERR_SIG_NULLDUMMY)] } none) := by
  refine ⟨?_, ?_, ?_, ?_, ?_, ?_⟩
  · intro hv1
    rw [analyzeStep_op_def, hexec]
    simp only [Bool.not_true, Bool.false_and, Bool.false_eq_true, if_false]
    rw [opSwitch_checkmultisig_def, if_pos hv1]
  · intro bk rest hv hstack hlen
    have e1 : s.numFromStack = (.undef, { s with stack := rest }) :=
      numFromStack_bytes_overflow s hstack (by omega)
    rw [analyzeStep_op_def, hexec]
    simp only [Bool.not_true, Bool.false_and, Bool.false_eq_true, if_false]
    rw [opSwitch_checkmultisig_def, if_neg (by simp [hv])]
    simp only [e1]
  · intro bk rest k hv hstack hlen hk hkrange
    have e1 : s.numFromStack = (.val k, { s with stack := rest }) := by
      rw [numFromStack_bytes s hstack hlen, hk]
    have d1 : (k < 0 || k > 20) = true := by
      rcases hkrange with h | h <;> simp [h]
    rw [analyzeStep_op_def, hexec]
    simp only [Bool.not_true, Bool.false_and, Bool.false_eq_true, if_false]
    rw [opSwitch_checkmultisig_def, if_neg (by simp [hv])]
    simp only [e1, d1, if_true]
  · intro bk bs P rest k hv hstack hlen hk hk0 hk20 hP hbs
    have e1 : s.numFromStack =
        (.val k, { s with stack := P ++ Expr.bytes bs :: rest }) := by
      rw [numFromStack_bytes s hstack hlen, hk]
    have e2 : ({ s with stack := P ++ Expr.bytes bs :: rest } : AnState).takeElements
        k.toNat = (P.reverse, { s with stack := Expr.bytes bs :: rest }) :=
      takeElements_exact _ rfl hP
    have e3 : ({ s with stack := Expr.bytes bs :: rest } : AnState).numFromStack =
        (.undef, { s with stack := rest }) :=
      numFromStack_bytes_overflow _ rfl (by omega)
    have d1 : ¬ k < 0 := by omega
    have d2 : ¬ k > 20 := by omega
    rw [analyzeStep_op_def, hexec]
    simp only [Bool.not_true, Bool.false_and, Bool.false_eq_true, if_false]
    rw [opSwitch_checkmultisig_def, if_neg (by simp [hv])]
    simp only [e1, e2, e3, d1, d2, decide_False, Bool.or_self, Bool.false_eq_true,
      if_false]
  · intro bk bs P rest k sc hv hstack hlen hk hk0 hk20 hP hbs hsc hscrange
    have e1 : s.numFromStack =
        (.val k, { s with stack := P ++ Expr.bytes bs :: rest }) := by
      rw [numFromStack_bytes s hstack hlen, hk]
    have e2 : ({ s with stack := P ++ Expr.bytes bs :: rest } : AnState).takeElements
        k.toNat = (P.reverse, { s with stack := Expr.bytes bs :: rest }) :=
      takeElements_exact _ rfl hP
    have e3 : ({ s with stack := Expr.bytes bs :: rest } : AnState).numFromStack =
        (.val sc, { s with stack := rest }) := by
      rw [numFromStack_bytes _ rfl hbs, hsc]
    have d1 : ¬ k < 0 := by omega
    have d2 : ¬ k > 20 := by omega
    have d3 : (sc < 0 || sc > k) = true := by
      rcases hscrange with h | h <;> simp [h]
    rw [analyzeStep_op_def, hexec]
    simp only [Bool.not_true, Bool.false_and, Bool.false_eq_true, if_false]
    rw [opSwitch_checkmultisig_def, if_neg (by simp [hv])]
    simp only [e1, e2, e3, d1, d2, d3, decide_False, Bool.or_self, Bool.false_eq_true,
      if_false, if_true]
  · intro bk bs P S dummy rest k sc hv hstack hlen hk hk0 hk20 hP hbs hsc hsc0 hsck
      hS hbound
    have e1 : s.numFromStack =
        (.val k, { s with stack := P ++ Expr.bytes bs :: (S ++ dummy :: rest) }) := by
      rw [numFromStack_bytes s hstack hlen, hk]
    have e2 : ({ s with stack := P ++ Expr.bytes bs :: (S ++ dummy :: rest) } :
        AnState).takeElements k.toNat =
        (P.reverse, { s with stack := Expr.bytes bs :: (S ++ dummy :: rest) }) :=
      takeElements_exact _ rfl hP
    have e3 : ({ s with stack := Expr.bytes bs :: (S ++ dummy :: rest) } :
        AnState).numFromStack =
        (.val sc, { s with stack := S ++ dummy :: rest }) := by
      rw [numFromStack_bytes _ rfl hbs, hsc]
    have e4 : ({ s with stack := S ++ dummy :: rest } : AnState).takeElements
        sc.toNat = (S.reverse, { s with stack := dummy :: rest }) :=
      takeElements_exact _ rfl hS
    have e5 : ({ s with stack := dummy :: rest } : AnState).takeElements 1 =
        ([dummy], { s with stack := rest }) := by
      have := @takeElements_exact ({ s with stack := dummy :: rest } : AnState)
        [dummy] rest rfl 1 rfl
      simpa using this
    have d1 : ¬ k < 0 := by omega
    have d2 : ¬ k > 20 := by omega
    have d3 : ¬ sc < 0 := by omega
    have d4 : ¬ sc > k := by omega
    rw [analyzeStep_op_def, hexec]
    simp only [Bool.not_true, Bool.false_and, Bool.false_eq_true, if_false]
    rw [opSwitch_checkmultisig_def, if_neg (by simp [hv])]
    simp only [e1, e2, e3, e4, e5, d1, d2, d3, d4, decide_False, Bool.or_self,
      Bool.false_eq_true, if_false]
    rw [finishIter_eq_next]
    · rfl
    · simp only [List.length_cons]
      omega

/-- Witness for C4: a Tapscript state with one concrete stack element,
executing OP_IF. -/
theorem c4_conditional_fork_witness :
    (AnState.mk 2 0 [Expr.bytes [1]] [] [] 0 ConditionStack.init).cs.all_true = true
    ∧ analyzeStep (AnState.mk 2 0 [Expr.bytes [1]] [] [] 0 ConditionStack.init)
        (.op opcodes.OP_IF) =
      .next
        (AnState.mk 2 0 [] []
          [Expr.app opcodes.OP_EQUAL [Expr.bytes [1], Expr.bytes ScriptConv.Bool_TRUE]
            (some ScriptError.SCRIPT_ERR_TAPSCRIPT_MINIMALIF)] 0 ⟨1, -1⟩)
        (some (AnState.mk 2 0 [] []
          [Expr.app opcodes.OP_EQUAL [Expr.bytes [1], Expr.bytes ScriptConv.Bool_FALSE]
            (some ScriptError.SCRIPT_ERR_TAPSCRIPT_MINIMALIF)] 0 ⟨1, 0⟩)) := by
  refine ⟨rfl, ?_⟩
  rw [c4_conditional_fork (AnState.mk 2 0 [Expr.bytes [1]] [] [] 0 ConditionStack.init)
    opcodes.OP_IF rfl (Or.inl rfl) (by norm_num)]
  rfl

theorem natDigits_unfold (m : Nat) :
    ScriptConv.natDigits m =
      if m = 0 then [] else (m &&& 0xff) :: ScriptConv.natDigits (m >>> 8) := by
  rw [ScriptConv.natDigits]

/-- Witness for C5: a 1-of-1 CHECKMULTISIG on a concrete legacy-version
stack. -/
theorem c5_checkmultisig_witness :
    analyzeStep
        (AnState.mk 0 0
          [Expr.bytes [1], Expr.bytes [0xaa], Expr.bytes [1], Expr.bytes [0xbb],
           Expr.bytes []] [] [] 0 ConditionStack.init)
        (.op opcodes.OP_CHECKMULTISIG) =
      .next
        (AnState.mk 0 0
          [Expr.app opcodes.OP_CHECKMULTISIG
            [Expr.bytes [0xbb], Expr.bytes [1], Expr.bytes [0xaa], Expr.bytes [1]]
            none]
          []
          [Expr.app opcodes.OP_EQUAL [Expr.bytes [], Expr.bytes ScriptConv.Bool_FALSE]
            (some ScriptError.SCRIPT_ERR_SIG_NULLDUMMY)] 0 ConditionStack.init)
        none := by
  have h := (c5_checkmultisig
      (AnState.mk 0 0
        [Expr.bytes [1], Expr.bytes [0xaa], Expr.bytes [1], Expr.bytes [0xbb],
         Expr.bytes []] [] [] 0 ConditionStack.init) rfl).2.2.2.2.2
    [1] [1] [Expr.bytes [0xaa]] [Expr.bytes [0xbb]] (Expr.bytes []) [] 1 1
    rfl rfl (by norm_num) rfl (by norm_num) (by norm_num) rfl (by norm_num) rfl
    (by norm_num) (by norm_num) rfl (by norm_num)
  have hnd0 : ScriptConv.natDigits 0 = [] := by rw [natDigits_unfold]; simp
  have hnd1 : ScriptConv.natDigits 1 = [1] := by rw [natDigits_unfold]; simp [hnd0]
  have henc : ScriptConv.Int_encode 1 = [1] := by simp [ScriptConv.Int_encode, hnd1]
  rw [h]
  simp [henc]


end BtcFun
